import Mathlib

/-!
# Verification of the dffl-stats data pipeline

A shallow embedding of the `dffl-stats` repository: the pandas dataframes the
scripts manipulate are modelled as header-plus-rows tables of cell values, and
each Python function relevant to the claims (`config.py`,
`merge_detailed_stats.py`, `update_historic_stats.py`, the scraping control
flow of `fetch_csv.py` / `update_2025_stats.py`, and the load-and-merge
pipeline of `main.py`) is translated into an executable Lean definition.
Numeric cells are integers; missing data (`NaN` / `None` / `pd.NA`) is the
explicit `Val.na`; operations that can raise in Python return `Option`.
-/

namespace DfflStats

/-- A cell value of a dataframe.  `na` stands for any missing value
(`NaN`, Python `None`, `pd.NA`); numbers read from the stats CSVs are
integers; everything else is a string. -/
inductive Val where
  | na : Val
  | int : Int → Val
  | str : String → Val
deriving Repr, DecidableEq

/-- The pandas dtypes the pipeline uses: `obj` is the `object` dtype (also the
result of `astype(str)`), `int64` is the plain `int` dtype, and `nullableInt`
is the nullable extension dtype `'Int64'`. -/
inductive PyDtype where
  | obj : PyDtype
  | int64 : PyDtype
  | nullableInt : PyDtype
deriving Repr, DecidableEq

/-- A dataframe: a header of (column name, dtype) pairs, and rows of cells
aligned positionally with the header. -/
structure Df where
  header : List (String × PyDtype)
  rows : List (List Val)
deriving Repr, DecidableEq

def Df.names (df : Df) : List String := df.header.map Prod.fst

/-! ## Generic list helpers -/

/-- First-match association lookup (the behaviour of a Python dict built from
a key-value list, and of label lookup in a pandas axis). -/
def alook [DecidableEq κ] (k : κ) : List (κ × α) → Option α
  | [] => none
  | e :: t => if e.1 = k then some e.2 else alook k t

/-- Model of `omap f l` maps a fallible `f` over `l`, failing if any element fails
(the behaviour of a Python loop in which any raised exception aborts). -/
def omap (f : α → Option β) : List α → Option (List β)
  | [] => some []
  | a :: t =>
    match f a, omap f t with
    | some b, some bt => some (b :: bt)
    | _, _ => none

def nth? : List α → Nat → Option α
  | [], _ => none
  | a :: _, 0 => some a
  | _ :: t, n + 1 => nth? t n

def listSet : List α → Nat → α → List α
  | [], _, _ => []
  | _ :: t, 0, a => a :: t
  | x :: t, n + 1, a => x :: listSet t n a

def nodupB [DecidableEq α] : List α → Bool
  | [] => true
  | a :: t => !(decide (a ∈ t)) && nodupB t

/-- Model of `leadsWith p l`: the char list `l` starts with `p`. -/
def leadsWith : List Char → List Char → Bool
  | [], _ => true
  | _ :: _, [] => false
  | a :: as, b :: bs => a = b && leadsWith as bs

/-- Substring test on char lists (Python's `in` / pandas `str.contains` with a
plain pattern). -/
def listContainsSub (l p : List Char) : Bool :=
  (List.range (l.length + 1)).any (fun i => leadsWith p (l.drop i))

/-! ## Python value helpers -/

def pdIsna : Val → Bool
  | .na => true
  | _ => false

/-- Python `str(value)` on a cell: integers print as decimal, a missing value
read from a CSV is a float `NaN` and prints as `"nan"`. -/
def pyStr : Val → String
  | .na => "nan"
  | .int n => toString n
  | .str s => s

def digitsToNat (cs : List Char) : Nat :=
  cs.foldl (fun a c => a * 10 + (c.toNat - 48)) 0

/-- Python `str.strip()` with no argument (also the stripping `float()` and
`int()` perform): remove leading and trailing whitespace. -/
def trimChars (cs : List Char) : List Char :=
  ((cs.dropWhile Char.isWhitespace).reverse.dropWhile Char.isWhitespace).reverse

def pyStrip (s : String) : String := ⟨trimChars s.data⟩

/-- The exact value of a parsed decimal literal, `num / 10 ^ exp`.  Python's
`float()` rounds this to a binary float; the rounding only moves the value
beyond 15 significant digits, which never changes the truncated integer for
the short player-number strings this pipeline handles, so the model keeps the
exact decimal. -/
structure Dec where
  num : Int
  exp : Nat
deriving Repr, DecidableEq

/-- Model of Python `float()` on plain decimal literals: optional surrounding
whitespace, optional sign, digits with an optional single decimal point (at
least one digit).  Exponent notation and the special forms `inf`/`nan` are
outside the fragment this data uses. -/
def pyFloat (s : String) : Option Dec :=
  let cs := trimChars s.data
  let sgn : Bool × List Char :=
    match cs with
    | '-' :: t => (true, t)
    | '+' :: t => (false, t)
    | _ => (false, cs)
  let ip := sgn.2.takeWhile Char.isDigit
  let rest := sgn.2.dropWhile Char.isDigit
  let mag : Option Dec :=
    match rest with
    | [] => if ip.isEmpty then none else some ⟨(digitsToNat ip : Int), 0⟩
    | '.' :: fp =>
      if fp.all Char.isDigit && !(ip.isEmpty && fp.isEmpty) then
        some ⟨(digitsToNat (ip ++ fp) : Int), fp.length⟩
      else none
    | _ => none
  mag.map (fun d => if sgn.1 then ⟨-d.num, d.exp⟩ else d)

/-- Python `int()` on a float: truncation toward zero. -/
def pyIntOfFloat (d : Dec) : Int :=
  if d.num < 0 then -(Int.ofNat (d.num.natAbs / 10 ^ d.exp))
  else Int.ofNat (d.num.natAbs / 10 ^ d.exp)

/-- Python `int()` on a string: optional surrounding whitespace, optional
sign, decimal digits only (so `int("19.0")` raises → `none`). -/
def pyIntParse (s : String) : Option Int :=
  let cs := trimChars s.data
  let sgn : Bool × List Char :=
    match cs with
    | '-' :: t => (true, t)
    | '+' :: t => (false, t)
    | _ => (false, cs)
  if sgn.2.isEmpty || !(sgn.2.all Char.isDigit) then none
  else some (if sgn.1 then -(digitsToNat sgn.2 : Int) else (digitsToNat sgn.2 : Int))

/-- The value stored in an object column by `Series.apply` when the applied
function returns `None` or an `int`. -/
def optIntVal : Option Int → Val
  | none => .na
  | some n => .int n

/-! ## config.py -/

/-- Model of `COLUMN_MAPPING` from config.py: German column names to English. -/
def COLUMN_MAPPING : List (String × String) :=
  [("Team", "Team"),
   ("Spielernummer", "Player Number"),
   ("Anzahl", "Count"),
   ("Event", "Event"),
   ("Jahr", "Year"),
   ("Gegen", "Opponent"),
   ("Spieltag", "Matchday"),
   ("Datum", "Date"),
   ("stage", "Stage"),
   ("standing", "Standing"),
   ("scheduled", "Scheduled Time"),
   ("created_time", "Created Time")]

/-- Model of `EXPECTED_COLUMNS` from config.py: expected English column names with
their Python target types (`str` ↦ `.obj`, `int` ↦ `.int64`). -/
def EXPECTED_COLUMNS : List (String × PyDtype) :=
  [("Team", .obj),
   ("Player Number", .obj),
   ("Count", .int64),
   ("Event", .obj),
   ("Year", .int64),
   ("Opponent", .obj),
   ("Matchday", .obj),
   ("Date", .obj),
   ("Stage", .obj),
   ("Standing", .obj),
   ("Scheduled Time", .obj),
   ("Created Time", .obj)]

/-- Model of `clean_player_number` from config.py: `None` on missing input, otherwise
`int(float(str(value).strip()))`, with any parse error yielding `None`. -/
def Config.clean_player_number (value : Val) : Option Int :=
  if pdIsna value then none
  else
    match pyFloat (pyStrip (pyStr value)) with
    | some q => some (pyIntOfFloat q)
    | none => none

/-- Model of `clean_player_number` from main.py (lines 14-24); its body is the same as
the config.py version. -/
def MainPy.clean_player_number (value : Val) : Option Int :=
  if pdIsna value then none
  else
    match pyFloat (pyStrip (pyStr value)) with
    | some q => some (pyIntOfFloat q)
    | none => none

/-- Model of `clean_player_number` from update_2025_stats.py (lines 147-162): keeps
only the digit characters of `str(value).strip()`, converts them to an
integer, and accepts only values strictly between 0 and 100 (the Python
guard `if cleaned_int and 0 < cleaned_int < 100` also rejects `0`, which
already fails `0 < cleaned_int`). -/
def Update2025.clean_player_number (value : Val) : Option Int :=
  if pdIsna value then none
  else
    let str_value := pyStrip (pyStr value)
    let cleaned := str_value.toList.filter Char.isDigit
    let cleaned_int : Option Int :=
      if cleaned.isEmpty then none else some (digitsToNat cleaned : Int)
    match cleaned_int with
    | some n => if 0 < n ∧ n < 100 then some n else none
    | none => none

/-! ## Dataframe operations -/

/-- One cell of `astype`: cast `v` from dtype `src` to dtype `tgt`.
`astype(str)` renders a missing value as `"<NA>"` from an `'Int64'` column and
as `"nan"` otherwise; `astype(int)` raises on missing values and non-integer
strings; `astype('Int64')` accepts integers and missing values from an object
column but raises on strings. -/
def castVal (src tgt : PyDtype) (v : Val) : Option Val :=
  match tgt with
  | .obj =>
    match v with
    | .na => some (.str (if src = .nullableInt then "<NA>" else "nan"))
    | .int n => some (.str (toString n))
    | .str s => some (.str s)
  | .int64 =>
    match v with
    | .na => none
    | .int n => some (.int n)
    | .str s => (pyIntParse s).map Val.int
  | .nullableInt =>
    match v with
    | .na => some .na
    | .int n => some (.int n)
    | .str _ => none

/-- The conversion `astype` applies to one cell: the column's entry in the
conversion list when there is one, the identity otherwise. -/
def castCell (convs : List (String × PyDtype)) (cd : String × PyDtype) (v : Val) :
    Option Val :=
  match alook cd.1 convs with
  | some t => castVal cd.2 t v
  | none => some v

/-- Cast the cells of one row according to the conversion list `convs`,
walking the header positionally. -/
def castRowAux (convs : List (String × PyDtype)) :
    List (String × PyDtype) → List Val → Option (List Val)
  | [], r => some r
  | _ :: _, [] => some []
  | cd :: ht, v :: vt =>
    match castCell convs cd v, castRowAux convs ht vt with
    | some w, some wt => some (w :: wt)
    | _, _ => none

/-- Model of `df.astype(convs)`: every column named in `convs` is cast to its target
dtype; any failing cell raises (→ `none`). -/
def Df.astype (df : Df) (convs : List (String × PyDtype)) : Option Df :=
  (omap (castRowAux convs df.header) df.rows).map (fun rs =>
    ⟨df.header.map (fun cd => (cd.1, (alook cd.1 convs).getD cd.2)), rs⟩)

/-- Cells of one row transformed by `Series.apply` on the column named `c`. -/
def applyRowAux (c : String) (f : Val → Val) :
    List (String × PyDtype) → List Val → List Val
  | _, [] => []
  | [], r => r
  | cd :: ht, v :: vt => (if cd.1 = c then f v else v) :: applyRowAux c f ht vt

/-- Model of `df[c] = df[c].apply(f)`: the column becomes an object column of the
results. -/
def Df.applyCol (df : Df) (c : String) (f : Val → Val) : Df :=
  ⟨df.header.map (fun cd => if cd.1 = c then (cd.1, PyDtype.obj) else cd),
   df.rows.map (applyRowAux c f df.header)⟩

/-- Model of `df[c] = df[c].apply(f)` where a missing column is a `KeyError`. -/
def Df.applyColF (df : Df) (c : String) (f : Val → Val) : Option Df :=
  if c ∈ df.names then some (df.applyCol c f) else none

/-- Model of `df[c] = df[c].astype(t)`: cast a single column (a missing column is a
`KeyError`). -/
def Df.castCol (df : Df) (c : String) (t : PyDtype) : Option Df :=
  if c ∈ df.names then
    (omap (castRowAux [(c, t)] df.header) df.rows).map (fun rs =>
      ⟨df.header.map (fun cd => if cd.1 = c then (cd.1, t) else cd), rs⟩)
  else none

/-- Model of `df.rename(columns=m)`: every column label that is a key of `m` is
replaced by its image, all other labels are untouched. -/
def Df.rename (df : Df) (m : List (String × String)) : Df :=
  ⟨df.header.map (fun cd => ((alook cd.1 m).getD cd.1, cd.2)), df.rows⟩

/-- Model of `standardize_dataframe` from config.py, steps after the optional German
renaming: clean `Player Number` and cast it to `'Int64'` when present, then
apply `astype` with every `EXPECTED_COLUMNS` entry whose column exists. -/
def postStandardize (df : Df) : Option Df := do
  let df2 ←
    if "Player Number" ∈ df.names then
      (df.applyCol "Player Number"
        (fun v => optIntVal (Config.clean_player_number v))).castCol
        "Player Number" .nullableInt
    else pure df
  let type_conversions := EXPECTED_COLUMNS.filter (fun cd => decide (cd.1 ∈ df2.names))
  if type_conversions.isEmpty then pure df2 else df2.astype type_conversions

/-- Model of `standardize_dataframe` from config.py.  The initial `df.copy()` is a
no-op at the value level (the aliasing behaviour is modelled separately by
`standardize_dataframe_store`).  When `is_german` the columns are renamed via
the `rename_dict` filtered to the columns present. -/
def standardize_dataframe (df : Df) (is_german : Bool) : Option Df :=
  let df1 :=
    if is_german then
      df.rename (COLUMN_MAPPING.filter (fun kv => decide (kv.1 ∈ df.names)))
    else df
  postStandardize df1

/-! ## Row access and merges (main.py) -/

/-- Model of `r[c]` for a row `r`: the cell under the first header entry named `c`. -/
def rowCell : List (String × PyDtype) → List Val → String → Option Val
  | cd :: ht, v :: vt, c => if cd.1 = c then some v else rowCell ht vt c
  | _, _, _ => none

/-- Model of `df[cs]`: column projection in the requested order (a missing label is a
`KeyError`). -/
def Df.select (df : Df) (cs : List String) : Option Df := do
  let hdr ← omap (fun c => (alook c df.header).map (fun d => (c, d))) cs
  let rows ← omap (fun r => omap (rowCell df.header r) cs) df.rows
  pure ⟨hdr, rows⟩

def dedupAux (seen : List (List Val)) : List (List Val) → List (List Val)
  | [] => []
  | r :: t => if r ∈ seen then dedupAux seen t else r :: dedupAux (r :: seen) t

/-- Model of `df.drop_duplicates()`: keep the first occurrence of each row, in order. -/
def Df.dropDuplicates (df : Df) : Df := ⟨df.header, dedupAux [] df.rows⟩

/-- The merge key of one row: the cells under `keys`, in order. -/
def keyOfRow (hdr : List (String × PyDtype)) (keys : List String) (r : List Val) :
    Option (List Val) :=
  omap (rowCell hdr r) keys

/-- The non-key columns of a header. -/
def nonKeyCols (hdr : List (String × PyDtype)) (keys : List String) :
    List (String × PyDtype) :=
  hdr.filter (fun cd => !(decide (cd.1 ∈ keys)))

/-- Header of `l.merge(r, on=keys, how='left', suffixes=(lsuf, rsuf))`: the
left columns (suffixed where they clash with a right non-key column) followed
by the right non-key columns (suffixed where they clash with a left column). -/
def mergedHeader (l r : Df) (keys : List String) (lsuf rsuf : String) :
    List (String × PyDtype) :=
  let rNames := (nonKeyCols r.header keys).map Prod.fst
  l.header.map (fun cd => (if decide (cd.1 ∈ rNames) then cd.1 ++ lsuf else cd.1, cd.2)) ++
    (nonKeyCols r.header keys).map
      (fun cd => (if decide (cd.1 ∈ l.names) then cd.1 ++ rsuf else cd.1, cd.2))

/-- Model of `l.merge(r, on=keys, how='left', suffixes=(lsuf, rsuf))`: each left row is
paired with every right row whose key matches; an unmatched left row is kept
once with the right columns filled with missing values. -/
def Df.leftMerge (l r : Df) (keys : List String) (lsuf rsuf : String) : Option Df := do
  let rNames := (nonKeyCols r.header keys).map Prod.fst
  let groups ← omap (fun lr => do
      let k ← keyOfRow l.header keys lr
      let ms := r.rows.filter (fun rr => decide (keyOfRow r.header keys rr = some k))
      if ms.isEmpty then
        pure [lr ++ rNames.map (fun _ => Val.na)]
      else
        omap (fun rr => (omap (rowCell r.header rr) rNames).map (lr ++ ·)) ms)
    l.rows
  pure ⟨mergedHeader l r keys lsuf rsuf, groups.flatten⟩

/-- Merge keys extracted from every right row, used by `validate="m:1"`. -/
def rightKeysUniqueB (r : Df) (keys : List String) : Bool :=
  match omap (keyOfRow r.header keys) r.rows with
  | some ks => nodupB ks
  | none => false

/-- The player-name merge of main.py (lines 212-231):
`df.merge(player_mapping_subset, on=["Team", "Player Number"], how="left",
validate="m:1")`; the `m:1` validation raises when a right key repeats. -/
def mergedPlayers (df pm_subset : Df) : Option Df :=
  if rightKeysUniqueB pm_subset ["Team", "Player Number"] then
    df.leftMerge pm_subset ["Team", "Player Number"] "_x" "_y"
  else none

/-- The league lambda of main.py line 239:
`"Combined" if x <= 2022 else "Other Leagues"`.  A missing year is a float
`NaN`, for which `x <= 2022` is `False` in Python; comparing a string with an
integer raises. -/
def leagueOfYearVal : Val → Option Val
  | .na => some (.str "Other Leagues")
  | .int y => some (.str (if y ≤ 2022 then "Combined" else "Other Leagues"))
  | .str _ => none

/-- Model of `df[newCol] = df[srcCol].apply(f)` where `newCol` is a fresh column:
appended as an object column at the end. -/
def Df.addColApply (df : Df) (newCol srcCol : String) (f : Val → Option Val) :
    Option Df := do
  let rows ← omap (fun r => do
      let v ← rowCell df.header r srcCol
      let w ← f v
      pure (r ++ [w])) df.rows
  pure ⟨df.header ++ [(newCol, .obj)], rows⟩

/-- Model of `m[dst] = m[src].combine_first(m[dst])`: the first column named `dst`
receives `src`'s value where it is present and keeps its own otherwise. -/
def setCellByName : List (String × PyDtype) → List Val → String → Val → List Val
  | cd :: ht, v :: vt, c, w => if cd.1 = c then w :: vt else v :: setCellByName ht vt c w
  | _, r, _, _ => r

def Df.combineFirstCol (m : Df) (dst src : String) : Option Df := do
  let rows ← omap (fun r => do
      let a ← rowCell m.header r src
      let b ← rowCell m.header r dst
      pure (setCellByName m.header r dst (if pdIsna a then b else a))) m.rows
  pure ⟨m.header, rows⟩

/-- main.py lines 233-255: build the complete league mapping from the unique
(Year, Team) pairs of `df`, defaulting by year and overriding from
`league_mapping` (whose `Year` is first cast to `int`). -/
def complete_league_mapping_df (df league_mapping : Df) : Option Df := do
  let tyc0 ← df.select ["Year", "Team"]
  let tyc1 := tyc0.dropDuplicates
  let tyc2 ← tyc1.addColApply "League" "Year" leagueOfYearVal
  let lm ← league_mapping.castCol "Year" .int64
  let lmSel ← lm.select ["Year", "Team", "League"]
  let merged ← tyc2.leftMerge lmSel ["Year", "Team"] "" "_dffl"
  let merged2 ← merged.combineFirstCol "League" "League_dffl"
  merged2.select ["Year", "Team", "League"]

/-- main.py lines 233-262: the league merge onto the combined stats frame. -/
def league_merge (df league_mapping : Df) : Option Df := do
  let clm ← complete_league_mapping_df df league_mapping
  df.leftMerge clm ["Year", "Team"] "_x" "_y"

/-! ## merge_detailed_stats.py and update_historic_stats.py -/

/-- Model of `pd.concat(dfs, ignore_index=True)`.  The pipeline only concatenates
frames sharing one schema; the model requires equal headers and appends the
rows in order (column re-alignment of mismatched schemas is outside the
modelled fragment), and `pd.concat([])` raises. -/
def concatAll (dfs : List Df) : Option Df :=
  match dfs with
  | [] => none
  | d :: t =>
    if t.all (fun x => decide (x.header = d.header)) then
      some ⟨d.header, (dfs.map Df.rows).flatten⟩
    else none

/-- Model of `merge_historic_files` from merge_detailed_stats.py: the inputs are the
contents of `"Player Stats_detail (1).csv"` (2024), `"(2)"` (2023) and
`"(3)"` (2022), `none` when the file does not exist (it is then skipped with
a warning).  A `none` result means no output file is written. -/
def merge_historic_files (f1 f2 f3 : Option Df) : Option Df :=
  let dfs := ([f1, f2, f3].map Option.toList).flatten
  if dfs.isEmpty then none
  else concatAll dfs

/-- Model of `df['Year'] < bound` followed by row selection, as in
`update_historic_stats.py`: a missing `Year` column is a `KeyError` and a
non-integer entry makes the comparison raise. -/
def applyMask : List (List Val) → List Bool → List (List Val)
  | [], _ => []
  | _, [] => []
  | r :: rt, b :: bt => if b then r :: applyMask rt bt else applyMask rt bt

def filterYearLt (df : Df) (bound : Int) : Option Df := do
  let mask ← omap (fun r => do
      let v ← rowCell df.header r "Year"
      match v with
      | .int n => some (decide (n < bound))
      | _ => none) df.rows
  pure ⟨df.header, applyMask df.rows mask⟩

/-- Model of `update_historic_data` from update_historic_stats.py: `raw` is the frame
read from `dffl_stats.csv`; the result is the frame written to
`dffl_stats_historic.csv`, and `none` is the error path (log and re-raise). -/
def update_historic_data (raw : Df) : Option Df := do
  let df ← standardize_dataframe raw true
  filterYearLt df 2025

/-! ## fetch_csv.py -/

/-- The two extraction outcomes the environment can hand `fetch_dffl_csv`:
the CSV text produced by the DataTables-API evaluation (`null` / an exception
inside the page → `none`), and the decoded content of the export blob
captured after clicking the CSV button (`none` when no blob was captured). -/
structure FetchEnv where
  apiCsv : Option String
  blobData : Option String
deriving Repr, DecidableEq

inductive FetchResult where
  | saved : String → String → FetchResult
  | failed : String → FetchResult
deriving Repr, DecidableEq

/-- Model of `fetch_dffl_csv` from fetch_csv.py: Approach 1 writes the
DataTables-API CSV when it is non-null; otherwise Approach 2 clicks the
export button and writes the captured blob; if no blob data is captured the
run raises (the top-level handler logs and re-raises). -/
def fetch_dffl_csv (env : FetchEnv) : FetchResult :=
  match env.apiCsv with
  | some csv_data => .saved "dffl_stats.csv" csv_data
  | none =>
    match env.blobData with
    | some blob_data => .saved "dffl_stats.csv" blob_data
    | none => .failed "Failed to capture Blob URL or data"

/-! ## update_2025_stats.py: extract_table_data -/

/-- The extraction outcomes the page can hand `extract_table_data`: the table
parsed from the DataTables-API export (`resolve(null)` or an exception →
`none`), and the raw table collected by walking the DOM (`none` when the
query raised or produced nothing; the large-`table_2` branch reads the same
table through the DataTables row API and is covered by the same outcome). -/
structure ExtractEnv where
  apiCsv : Option Df
  domRows : Option Df
deriving Repr, DecidableEq

/-- The year-column probe of extract_table_data: any column whose lowercased
name contains one of `jahr`, `year`, `datum`, `date`. -/
def isYearName (c : String) : Bool :=
  ["jahr", "year", "datum", "date"].any
    (fun p => listContainsSub c.toLower.toList p.toList)

def yearColumns (df : Df) : List String := df.names.filter isYearName

/-- Model of `df[df[yc].astype(str).str.contains(year_filter)]`. -/
def filterYearContains (df : Df) (yc year_filter : String) : Df :=
  ⟨df.header, df.rows.filter (fun r =>
    match rowCell df.header r yc with
    | some v => listContainsSub (pyStr v).toList year_filter.toList
    | none => false)⟩

/-- Model of `process_downloaded_data` from update_2025_stats.py: standardize the
downloaded frame, returning an empty DataFrame on error. -/
def process_downloaded_data (raw : Df) : Df :=
  match standardize_dataframe raw true with
  | some df => df
  | none => ⟨[], []⟩

/-- Method 1 of `extract_table_data` (DataTables API): standardize the
exported frame; if it is non-empty, filter by the first year-like column and
yield the result when rows remain (yield everything when no year column
exists); any other outcome falls through. -/
def extractMethod1 (apiCsv : Option Df) (year_filter : String) : Option Df :=
  match apiCsv with
  | none => none
  | some raw =>
    let df := process_downloaded_data raw
    if df.rows.isEmpty then none
    else
      match yearColumns df with
      | [] => some df
      | yc :: _ =>
        let dff := filterYearContains df yc year_filter
        if dff.rows.isEmpty then none else some dff

/-- Method 2 of `extract_table_data` (direct DOM extraction): when rows were
collected, filter by the first year-like column and standardize; when the
filter leaves nothing, fall back to standardizing all collected data ("using
most recent data instead"); a standardization error is caught and the method
fails. -/
def extractMethod2 (domRows : Option Df) (year_filter : String) : Option Df :=
  match domRows with
  | none => none
  | some df =>
    if df.rows.isEmpty then none
    else
      match yearColumns df with
      | [] => standardize_dataframe df true
      | yc :: _ =>
        let dfy := filterYearContains df yc year_filter
        if dfy.rows.isEmpty then standardize_dataframe df true
        else standardize_dataframe dfy true

/-- Model of `extract_table_data` from update_2025_stats.py (lines 178-462): Method 1
first; only when it produces nothing is Method 2 run; when both fail the
function returns `None`.  A `some` result is also what gets saved to
`output_file`. -/
def extract_table_data (env : ExtractEnv) (year_filter : String) : Option Df :=
  match extractMethod1 env.apiCsv year_filter with
  | some d => some d
  | none => extractMethod2 env.domRows year_filter

/-- The spec's reading of the fallback chain: the strategies are tried
sequentially and the first one that yields data wins. -/
def firstYield : List (Option α) → Option α
  | [] => none
  | s :: t =>
    match s with
    | some d => some d
    | none => firstYield t

/-! ## update_2025_stats.py: update_2025_data -/

/-- The return value of `update_2025_data`: `True`, `False` (top-level
exception handler), or the bare `return` of the detail-table-missing
branch. -/
inductive URet where
  | rTrue : URet
  | rFalse : URet
  | rNone : URet
deriving Repr, DecidableEq

/-- The environment of one `update_2025_data` run: whether each table
selector appeared, and what `extract_table_data` produced for it. -/
structure UpdateEnv where
  mainTableFound : Bool
  mainData : Option Df
  detailTableFound : Bool
  detailData : Option Df
deriving Repr, DecidableEq

/-- What a run left behind: whether `dffl_stats_2025.csv` and
`dffl_stats_detail_2025.csv` were written (the writes happen inside
`extract_table_data` whenever it returns a frame), and the return value. -/
structure UpdateOutcome where
  savedMain : Bool
  savedDetail : Bool
  ret : URet
deriving Repr, DecidableEq

/-- Model of `update_2025_data` from update_2025_stats.py (lines 464-956): a missing
main table or a failed main extraction raises, is caught at the top level and
returns `False`; a missing detail table logs a warning, closes the browser
and bare-returns with the main CSV already saved; a failed detail extraction
only logs a warning and the run still returns `True`. -/
def update_2025_data (env : UpdateEnv) : UpdateOutcome :=
  if env.mainTableFound = false then ⟨false, false, .rFalse⟩
  else
    match env.mainData with
    | none => ⟨false, false, .rFalse⟩
    | some d =>
      if d.rows.isEmpty then ⟨true, false, .rFalse⟩
      else if env.detailTableFound = false then ⟨true, false, .rNone⟩
      else ⟨true, env.detailData.isSome, .rTrue⟩

/-! ## main.py: the load-and-merge phase -/

/-- The five inputs main.py reads; `none` is a missing file or a failed
`pd.read_csv`. -/
structure DashInputs where
  historic : Option Df
  current : Option Df
  player_mapping : Option Df
  league_mapping : Option Df
  team_info : Option Df
deriving Repr, DecidableEq

def ofOption (o : Option α) (msg : String) : Except String α :=
  match o with
  | some a => .ok a
  | none => .error msg

/-- The name column of main.py lines 130-135:
`f"{first.strip() if notna else ''} {last.strip() if notna else ''}".strip()`. -/
def mkName (fn ln : Val) : Val :=
  .str (pyStrip ((if pdIsna fn then "" else pyStrip (pyStr fn)) ++ " " ++
                 (if pdIsna ln then "" else pyStrip (pyStr ln))))

def addNameCol (pm : Df) : Option Df := do
  let rows ← omap (fun r => do
      let fn ← rowCell pm.header r "First Name"
      let ln ← rowCell pm.header r "Last Name"
      pure (r ++ [mkName fn ln])) pm.rows
  pure ⟨pm.header ++ [("Name", .obj)], rows⟩

/-- main.py lines 108-157: clean the player mapping's numbers, build the
`Name` column, and take the `["Team", "Player Number", "Name"]` subset. -/
def prepPlayerMapping (pm : Df) : Option Df := do
  let pm1 ← pm.applyColF "Player Number"
    (fun v => optIntVal (MainPy.clean_player_number v))
  let pm2 ← pm1.castCol "Player Number" .nullableInt
  let pm3 ← addNameCol pm2
  pm3.select ["Team", "Player Number", "Name"]

/-- The load-and-merge phase of main.py (lines 63-262): every load,
standardization, cast or merge failure surfaces as `st.error` followed by
`st.stop` (or an uncaught exception that equally halts the script), modelled
as `Except.error`; the tabs render only from an `Except.ok` frame. -/
def dashboardLoad (inp : DashInputs) : Except String Df := do
  let historic ← ofOption inp.historic "Error loading data"
  let historic_df ← ofOption (standardize_dataframe historic true) "Error loading data"
  let current ← ofOption inp.current "Error loading data"
  let current_df ← ofOption (standardize_dataframe current false) "Error loading data"
  let df0 ← ofOption (concatAll [historic_df, current_df]) "Error loading data"
  let df1 ← ofOption (df0.castCol "Year" .int64) "Error loading data"
  let df2 ← ofOption (df1.applyColF "Player Number"
    (fun v => optIntVal (MainPy.clean_player_number v))) "Error loading data"
  let df3 ← ofOption (df2.castCol "Player Number" .nullableInt) "Error loading data"
  let pm ← ofOption inp.player_mapping "Player mapping CSV file not found"
  let pm_subset ← ofOption (prepPlayerMapping pm) "Error loading player mapping CSV"
  let lm ← ofOption inp.league_mapping "League mapping CSV file not found"
  let _ti ← ofOption inp.team_info "Team info CSV file not found"
  let df4 ← ofOption (df3.castCol "Team" .obj) "Error loading data"
  let df5 ← ofOption (mergedPlayers df4 pm_subset) "Error merging player data"
  ofOption (league_merge df5 lm) "Error in league merge"

/-! ## The store model of standardize_dataframe (for the no-mutation claim) -/

/-- Model of `standardize_dataframe` re-run at the object level: the heap is a list of
dataframe objects addressed by position.  `df = df.copy()` allocates a fresh
object; `df = df.rename(...)` and the final `df.astype(...)` rebind the local
name to fresh objects; the two `df['Player Number'] = ...` statements mutate
the object currently bound.  The result is the final heap together with the
address of the returned object.  `finishStore` is the tail of the function,
from `type_conversions` on: the final `astype` allocates a fresh object. -/
def finishStore (s : List Df) (c : Nat) (d : Df) : Option (List Df × Nat) :=
  let convs := EXPECTED_COLUMNS.filter (fun cd => decide (cd.1 ∈ d.names))
  if convs.isEmpty then some (s, c)
  else
    match d.astype convs with
    | none => none
    | some d4 => some (s ++ [d4], s.length)

/-- The two `df['Player Number'] = ...` statements: in-place mutation of the
object at address `p.2` of the heap `p.1`, followed by the function's tail. -/
def storeStep3 (p : List Df × Nat) (d2 : Df) : Option (List Df × Nat) :=
  if "Player Number" ∈ d2.names then
    let da := d2.applyCol "Player Number"
      (fun v => optIntVal (Config.clean_player_number v))
    let sa := listSet p.1 p.2 da
    match da.castCol "Player Number" .nullableInt with
    | none => none
    | some db => finishStore (listSet sa p.2 db) p.2 db
  else finishStore p.1 p.2 d2

def standardize_dataframe_store (s0 : List Df) (arg : Nat) (is_german : Bool) :
    Option (List Df × Nat) :=
  match nth? s0 arg with
  | none => none
  | some d0 =>
    let s1 := s0 ++ [d0]
    let p2 : List Df × Nat :=
      if is_german then
        (s1 ++ [d0.rename (COLUMN_MAPPING.filter (fun kv => decide (kv.1 ∈ d0.names)))],
         s1.length)
      else (s1, s0.length)
    match nth? p2.1 p2.2 with
    | none => none
    | some d2 => storeStep3 p2 d2

/-! ## Claim-side definitions -/

/-- Renaming a frame "according to `COLUMN_MAPPING`", as the spec words it:
every column that appears as a key is renamed to its English name, every
other column is left unchanged. -/
def renameByMapping (df : Df) : Df := df.rename COLUMN_MAPPING

/-- Claim C1's description of `standardize_dataframe`: rename when German,
then cast each `EXPECTED_COLUMNS` column that is present to its expected
dtype, with `Player Number` instead cleaned via `clean_player_number` and
cast to nullable `'Int64'` as its final state. -/
def standardizeClaimedC1 (df : Df) (is_german : Bool) : Option Df :=
  let df1 := if is_german then renameByMapping df else df
  EXPECTED_COLUMNS.foldlM (fun d cd =>
    if cd.1 ∈ d.names then
      if cd.1 = "Player Number" then
        (d.applyCol "Player Number"
          (fun v => optIntVal (Config.clean_player_number v))).castCol
          "Player Number" .nullableInt
      else d.castCol cd.1 cd.2
    else pure d) df1

/-- The amended description of `standardize_dataframe`: rename when German;
clean `Player Number` and cast it to `'Int64'` when present; then cast each
`EXPECTED_COLUMNS` column that is present to its expected dtype — including
`Player Number`, which is listed with expected dtype `str` and therefore ends
as a string column (missing entries rendered `"<NA>"`). -/
def standardizeAmendedC1 (df : Df) (is_german : Bool) : Option Df := do
  let df1 := if is_german then renameByMapping df else df
  let df2 ←
    if "Player Number" ∈ df1.names then
      (df1.applyCol "Player Number"
        (fun v => optIntVal (Config.clean_player_number v))).castCol
        "Player Number" .nullableInt
    else pure df1
  EXPECTED_COLUMNS.foldlM (fun d cd =>
    if cd.1 ∈ d.names then d.castCol cd.1 cd.2 else pure d) df2

/-- The league value claim C3 promises a row: the `league_mapping` entry for
the row's (Year, Team) pair when there is one, otherwise `"Combined"` up to
2022 and `"Other Leagues"` from 2023 on. -/
def leagueAssignedRow (assoc : List ((Val × Val) × Val))
    (hdr : List (String × PyDtype)) (r : List Val) : Val :=
  let yv := (rowCell hdr r "Year").getD .na
  let tv := (rowCell hdr r "Team").getD .na
  match alook (yv, tv) assoc with
  | some lg => lg
  | none =>
    match yv with
    | .int y => .str (if y ≤ 2022 then "Combined" else "Other Leagues")
    | _ => .na

/-- The name claim C7 promises a row: the mapped player's name when the
row's (Team, Player Number) pair is in the mapping, otherwise missing. -/
def nameForRow (assoc : List ((Val × Val) × Val))
    (hdr : List (String × PyDtype)) (r : List Val) : Val :=
  (alook ((rowCell hdr r "Team").getD .na,
          (rowCell hdr r "Player Number").getD .na) assoc).getD .na

/-- All frames in the list share one header (the schemas of the historic
detail exports coincide). -/
def headersAligned (l : List Df) : Prop :=
  ∀ a ∈ l, ∀ b ∈ l, a.header = b.header

instance (l : List Df) : Decidable (headersAligned l) := by
  unfold headersAligned
  exact List.decidableBAll _ l

/-- Claim C5 as stated, for the scraper: whenever the detail extraction fails
the run stops, saving no partial result. -/
def claimC5scraper : Prop :=
  ∀ env : UpdateEnv, env.detailTableFound = true → env.detailData = none →
    (update_2025_data env).savedMain = false ∧
    (update_2025_data env).ret ≠ URet.rTrue

/-! ## Concrete frames used by counterexamples and witnesses -/

/-- A one-column German export holding one player number. -/
def exDfC1 : Df := ⟨[("Spielernummer", .obj)], [[.str "7"]]⟩

/-- A one-row main-stats frame, standing in for a successful extraction. -/
def exMainDf : Df := ⟨[("Team", .obj), ("Year", .int64)], [[.str "Berlin", .int 2025]]⟩

/-- A small combined-stats frame for the league and player-name merges. -/
def exStatsDf : Df :=
  ⟨[("Team", .obj), ("Player Number", .nullableInt), ("Year", .int64)],
   [[.str "Berlin", .int 7, .int 2021],
    [.str "Berlin", .int 7, .int 2024],
    [.str "Potsdam", .int 9, .int 2024]]⟩

/-- A league mapping file: years arrive as strings and are cast to int. -/
def exLeagueDf : Df :=
  ⟨[("Year", .obj), ("Team", .obj), ("League", .obj)],
   [[.str "2024", .str "Berlin", .str "DFFL"]]⟩

/-- The processed association of `exLeagueDf`. -/
def exLeagueAssoc : List ((Val × Val) × Val) :=
  [((Val.int 2024, Val.str "Berlin"), Val.str "DFFL")]

/-- A player-mapping subset frame with a unique (Team, Player Number) key. -/
def exPlayerMapDf : Df :=
  ⟨[("Team", .obj), ("Player Number", .nullableInt), ("Name", .obj)],
   [[.str "Berlin", .int 7, .str "Ada Lovelace"]]⟩

/-- The association of `exPlayerMapDf`. -/
def exPlayerAssoc : List ((Val × Val) × Val) :=
  [((Val.str "Berlin", Val.int 7), Val.str "Ada Lovelace")]

/-- A detail export frame for the concatenation witness. -/
def exDetailDf1 : Df := ⟨[("Team", .obj)], [[.str "Berlin"], [.str "Potsdam"]]⟩

/-- A second detail export with the same schema. -/
def exDetailDf3 : Df := ⟨[("Team", .obj)], [[.str "Mainz"]]⟩

/-- A raw `dffl_stats.csv` frame with German headers and two years. -/
def exRawStatsDf : Df :=
  ⟨[("Jahr", .obj), ("Team", .obj)],
   [[.str "2020", .str "Berlin"], [.str "2025", .str "Berlin"]]⟩

/-- One right-side row of a merge, split into its key and non-key cells. -/
def rowEntry (hdr : List (String × PyDtype)) (keys rNames : List String)
    (rr : List Val) : Option (List Val × List Val) :=
  match keyOfRow hdr keys rr, omap (rowCell hdr rr) rNames with
  | some k, some cs => some (k, cs)
  | _, _ => none

/-- The association list a merge's right side denotes: each row's key paired
with its non-key cells. -/
def rowsAssoc (r : Df) (keys : List String) : Option (List (List Val × List Val)) :=
  omap (rowEntry r.header keys ((nonKeyCols r.header keys).map Prod.fst)) r.rows

/-- The right-side cells a left merge appends to one left row: the matching
right row's non-key cells, or missing values when the key is absent. -/
def mergeCells (assoc : List (List Val × List Val)) (fill : List Val) :
    Option (List Val) → List Val
  | some k => (alook k assoc).getD fill
  | none => fill

/-- The (Year, Team) cells of one stats row, as a merge key. -/
def ytKey (hdr : List (String × PyDtype)) (r : List Val) : List Val :=
  [(rowCell hdr r "Year").getD .na, (rowCell hdr r "Team").getD .na]

/-- The year-based default league of a (Year, Team) pair row. -/
def dfltOf : List Val → Val
  | Val.int y :: _ => Val.str (if y ≤ 2022 then "Combined" else "Other Leagues")
  | _ => Val.na

/-- The right-side cells the league merge appends to a (Year, Team) pair. -/
def mTail (assoc : List ((Val × Val) × Val)) : List Val → List Val
  | y :: tv :: _ =>
    (match alook (y, tv) assoc with
     | some lg => [lg]
     | none => [Val.na])
  | _ => [Val.na]

/-- The league a (Year, Team) pair ends up with: the mapping entry when one
exists, otherwise the year default. -/
def assignOf (assoc : List ((Val × Val) × Val)) : List Val → Val
  | y :: tv :: rest =>
    (match alook (y, tv) assoc with
     | some lg => lg
     | none => dfltOf (y :: tv :: rest))
  | _ => Val.na

/-- The historic file `update_historic_data` writes for `exRawStatsDf`. -/
def exHistOut : Df :=
  ⟨[("Year", .int64), ("Team", .obj)], [[.int 2020, .str "Berlin"]]⟩

/-- Rows contributed by an input file that may be missing. -/
def rowsOf : Option Df → List (List Val)
  | none => []
  | some d => d.rows

/-! ## Helper lemmas -/

theorem alook_eq_none_of_not_mem [DecidableEq κ] (k : κ) (l : List (κ × α))
    (h : k ∉ l.map Prod.fst) : alook k l = none := by
  induction l with
  | nil => rfl
  | cons e t ih =>
    simp only [List.map_cons, List.mem_cons, not_or] at h
    have hne : ¬ e.1 = k := fun he => h.1 he.symm
    simp only [alook, if_neg hne, ih h.2]

theorem alook_filter_mem {ns : List String} (k : String) (l : List (String × α))
    (hk : k ∈ ns) :
    alook k (l.filter (fun kv => decide (kv.1 ∈ ns))) = alook k l := by
  induction l with
  | nil => rfl
  | cons e t ih =>
    by_cases he : e.1 = k
    · subst he
      simp [List.filter_cons, alook, hk]
    · by_cases hp : e.1 ∈ ns <;> simp [List.filter_cons, alook, he, hp, ih]

theorem rename_filter (df : Df) :
    df.rename (COLUMN_MAPPING.filter (fun kv => decide (kv.1 ∈ df.names))) =
      renameByMapping df := by
  unfold Df.rename renameByMapping
  refine congrArg (fun h => Df.mk h df.rows) ?_
  refine List.map_congr_left (fun cd hcd => ?_)
  have hmem : cd.1 ∈ df.names := List.mem_map_of_mem Prod.fst hcd
  rw [alook_filter_mem cd.1 COLUMN_MAPPING hmem]

/-! ## Claim C8: the three clean_player_number implementations -/

/-- Claim C8 counterexample: at the input `"19.0"` the config.py (and
main.py) cleaner returns `19` while the update_2025_stats.py cleaner filters
the digits to `190`, which fails its 1–99 range check and yields `None`; so
the three definitions do not compute the same function. -/
theorem C8_counterexample :
    Config.clean_player_number (Val.str "19.0") = some 19 ∧
    Update2025.clean_player_number (Val.str "19.0") = none ∧
    Config.clean_player_number (Val.str "19.0") ≠
      Update2025.clean_player_number (Val.str "19.0") := by
  refine ⟨by decide, by decide, by decide⟩

/-- Claim C8, amended: the config.py and main.py definitions of
`clean_player_number` compute the same function; the update_2025_stats.py
definition is a different function (digit filtering plus a 1–99 range
restriction). -/
theorem C8_amended (value : Val) :
    Config.clean_player_number value = MainPy.clean_player_number value := rfl

/-! ## Claim C2: standardization unifies the two export languages -/

/-- Claim C2: when the English-sourced frame is the German-sourced frame with
its columns renamed according to `COLUMN_MAPPING`, standardizing the German
frame with `is_german=True` and the English frame with `is_german=False`
produce identical results. -/
theorem C2_standardization_unifies (df : Df) :
    standardize_dataframe (renameByMapping df) false = standardize_dataframe df true := by
  have h1 : standardize_dataframe (renameByMapping df) false =
      postStandardize (renameByMapping df) := rfl
  have h2 : standardize_dataframe df true =
      postStandardize (df.rename
        (COLUMN_MAPPING.filter (fun kv => decide (kv.1 ∈ df.names)))) := rfl
  rw [h1, h2, rename_filter]

/-! ## Claim C4: the sequential fallback strategies of the scraper -/

/-- Claim C4: both scraping entry points try their extraction strategies
sequentially — `fetch_dffl_csv` the DataTables-API export then the captured
export blob, `extract_table_data` the DataTables-API export then DOM
walking — a later strategy runs only when the earlier produced no data, the
first strategy that yields data provides the saved result, and when every
strategy fails `fetch_dffl_csv` raises while `extract_table_data` returns
`None`. -/
theorem C4_fallback_chain :
    (∀ (env : ExtractEnv) (yf : String),
        extract_table_data env yf =
          firstYield [extractMethod1 env.apiCsv yf, extractMethod2 env.domRows yf]) ∧
    (∀ fenv : FetchEnv,
        fetch_dffl_csv fenv =
          match firstYield [fenv.apiCsv, fenv.blobData] with
          | some c => FetchResult.saved "dffl_stats.csv" c
          | none => FetchResult.failed "Failed to capture Blob URL or data") ∧
    (∀ (env : ExtractEnv) (yf : String),
        extractMethod1 env.apiCsv yf = none → extractMethod2 env.domRows yf = none →
        extract_table_data env yf = none) ∧
    (∀ fenv : FetchEnv, fenv.apiCsv = none → fenv.blobData = none →
        fetch_dffl_csv fenv = FetchResult.failed "Failed to capture Blob URL or data") := by
  refine ⟨?_, ?_, ?_, ?_⟩
  · intro env yf
    cases h1 : extractMethod1 env.apiCsv yf <;>
      cases h2 : extractMethod2 env.domRows yf <;>
        simp [extract_table_data, firstYield, h1, h2]
  · intro fenv
    obtain ⟨a, b⟩ := fenv
    cases a <;> cases b <;> rfl
  · intro env yf h1 h2
    simp [extract_table_data, h1, h2]
  · intro fenv h1 h2
    obtain ⟨a, b⟩ := fenv
    cases h1; cases h2; rfl

/-- Witness for C4: with both strategies failing, the extraction returns
`None` and the fetch fails. -/
theorem C4_fallback_witness :
    extract_table_data ⟨none, none⟩ "2025" = none ∧
    fetch_dffl_csv ⟨none, none⟩ = FetchResult.failed "Failed to capture Blob URL or data" :=
  ⟨C4_fallback_chain.2.2.1 ⟨none, none⟩ "2025" rfl rfl,
   C4_fallback_chain.2.2.2 ⟨none, none⟩ rfl rfl⟩

/-! ## Claim C5: failure handling is not pure log-and-halt -/

theorem ofOption_bind_ok {o : Option α} {msg : String} {f : α → Except String β}
    {b : β} (h : (ofOption o msg >>= f) = .ok b) :
    ∃ a, o = some a ∧ f a = .ok b := by
  cases o with
  | none => simp [ofOption, Bind.bind, Except.bind] at h
  | some a =>
    refine ⟨a, rfl, ?_⟩
    simpa [ofOption, Bind.bind, Except.bind] using h

/-- Claim C5 counterexample: with a successful main-stats extraction and a
failed detail-stats extraction, `update_2025_data` keeps the already-saved
main CSV (a partial result) and returns `True` instead of stopping — so it is
not the case that every extraction failure merely logs and halts. -/
theorem C5_counterexample : ¬ claimC5scraper := by
  intro h
  have h2 := (h ⟨true, some exMainDf, true, none⟩ rfl rfl).1
  exact absurd h2 (by decide)

/-- Claim C5, amended: the dashboard does halt — `dashboardLoad` only reaches
a rendered frame when every input CSV was loaded (a missing one surfaces as
an error banner and `st.stop`).  The scraper halts without output only when
the main table or its extraction fails; a missing detail table bare-returns
and a failed detail extraction still returns `True`, in both cases keeping
the already-saved main-stats CSV as a partial result. -/
theorem C5_amended :
    (∀ (inp : DashInputs) (d : Df), dashboardLoad inp = .ok d →
        inp.historic.isSome ∧ inp.current.isSome ∧ inp.player_mapping.isSome ∧
        inp.league_mapping.isSome ∧ inp.team_info.isSome) ∧
    (∀ env : UpdateEnv, env.mainTableFound = false ∨ env.mainData = none →
        update_2025_data env = ⟨false, false, .rFalse⟩) ∧
    (∀ (env : UpdateEnv) (d : Df), env.mainTableFound = true → env.mainData = some d →
        d.rows.isEmpty = false → env.detailTableFound = false →
        update_2025_data env = ⟨true, false, .rNone⟩) ∧
    (∀ (env : UpdateEnv) (d : Df), env.mainTableFound = true → env.mainData = some d →
        d.rows.isEmpty = false → env.detailTableFound = true →
        update_2025_data env = ⟨true, env.detailData.isSome, .rTrue⟩) := by
  refine ⟨?_, ?_, ?_, ?_⟩
  · intro inp d hok
    unfold dashboardLoad at hok
    obtain ⟨a1, e1, hok⟩ := ofOption_bind_ok hok
    obtain ⟨a2, e2, hok⟩ := ofOption_bind_ok hok
    obtain ⟨a3, e3, hok⟩ := ofOption_bind_ok hok
    obtain ⟨a4, e4, hok⟩ := ofOption_bind_ok hok
    obtain ⟨a5, e5, hok⟩ := ofOption_bind_ok hok
    obtain ⟨a6, e6, hok⟩ := ofOption_bind_ok hok
    obtain ⟨a7, e7, hok⟩ := ofOption_bind_ok hok
    obtain ⟨a8, e8, hok⟩ := ofOption_bind_ok hok
    obtain ⟨a9, e9, hok⟩ := ofOption_bind_ok hok
    obtain ⟨a10, e10, hok⟩ := ofOption_bind_ok hok
    obtain ⟨a11, e11, hok⟩ := ofOption_bind_ok hok
    obtain ⟨a12, e12, hok⟩ := ofOption_bind_ok hok
    exact ⟨e1 ▸ rfl, e3 ▸ rfl, e9 ▸ rfl, e11 ▸ rfl, e12 ▸ rfl⟩
  · intro env h
    rcases h with h | h
    · simp [update_2025_data, h]
    · cases hm : env.mainTableFound <;> simp [update_2025_data, h, hm]
  · intro env d h1 h2 h3 h4
    simp [update_2025_data, h1, h2, h3, h4]
  · intro env d h1 h2 h3 h4
    simp [update_2025_data, h1, h2, h3, h4]

/-- Witness for C5: a run with the main extraction succeeding, the detail
table present and the detail extraction failing saves the main CSV and
returns `True`. -/
theorem C5_amended_witness :
    update_2025_data ⟨true, some exMainDf, true, none⟩ = ⟨true, false, .rTrue⟩ :=
  C5_amended.2.2.2 ⟨true, some exMainDf, true, none⟩ exMainDf rfl rfl (by decide) rfl

/-! ## Claim C6: merging the historic detail exports -/

theorem concatAll_aligned (d : Df) (t : List Df) (h : headersAligned (d :: t)) :
    concatAll (d :: t) = some ⟨d.header, ((d :: t).map Df.rows).flatten⟩ := by
  have hall : t.all (fun x => decide (x.header = d.header)) = true := by
    rw [List.all_eq_true]
    intro x hx
    simpa using h x (List.mem_cons_of_mem d hx) d (List.mem_cons_self d t)
  simp [concatAll, hall]

/-- Claim C6: `merge_historic_files` writes no output when no input file
exists, and otherwise produces exactly the rows of the input files that
exist, in the listed file order with each file's row order preserved (taking
the inputs to share one schema, as the three exports do). -/
theorem C6_merge_historic (f1 f2 f3 : Option Df)
    (h : headersAligned (([f1, f2, f3].map Option.toList).flatten)) :
    (merge_historic_files f1 f2 f3 = none ↔ f1 = none ∧ f2 = none ∧ f3 = none) ∧
    (∀ out, merge_historic_files f1 f2 f3 = some out →
        out.rows = rowsOf f1 ++ rowsOf f2 ++ rowsOf f3) := by
  cases f1 <;> cases f2 <;> cases f3
  case none.none.none =>
    exact ⟨by simp [merge_historic_files], fun out hout => by
      simp [merge_historic_files] at hout⟩
  case none.none.some c =>
    have hc := concatAll_aligned c [] (by exact h)
    have hm : merge_historic_files (none) (none) (some c) = concatAll (c :: []) := rfl
    refine ⟨by simp [hm, hc], fun out hout => ?_⟩
    rw [hm, hc] at hout
    cases hout
    simp [rowsOf]
  case none.some.none b =>
    have hc := concatAll_aligned b [] (by exact h)
    have hm : merge_historic_files (none) (some b) (none) = concatAll (b :: []) := rfl
    refine ⟨by simp [hm, hc], fun out hout => ?_⟩
    rw [hm, hc] at hout
    cases hout
    simp [rowsOf]
  case none.some.some b c =>
    have hc := concatAll_aligned b [c] (by exact h)
    have hm : merge_historic_files (none) (some b) (some c) = concatAll (b :: [c]) := rfl
    refine ⟨by simp [hm, hc], fun out hout => ?_⟩
    rw [hm, hc] at hout
    cases hout
    simp [rowsOf]
  case some.none.none a =>
    have hc := concatAll_aligned a [] (by exact h)
    have hm : merge_historic_files (some a) (none) (none) = concatAll (a :: []) := rfl
    refine ⟨by simp [hm, hc], fun out hout => ?_⟩
    rw [hm, hc] at hout
    cases hout
    simp [rowsOf]
  case some.none.some a c =>
    have hc := concatAll_aligned a [c] (by exact h)
    have hm : merge_historic_files (some a) (none) (some c) = concatAll (a :: [c]) := rfl
    refine ⟨by simp [hm, hc], fun out hout => ?_⟩
    rw [hm, hc] at hout
    cases hout
    simp [rowsOf]
  case some.some.none a b =>
    have hc := concatAll_aligned a [b] (by exact h)
    have hm : merge_historic_files (some a) (some b) (none) = concatAll (a :: [b]) := rfl
    refine ⟨by simp [hm, hc], fun out hout => ?_⟩
    rw [hm, hc] at hout
    cases hout
    simp [rowsOf]
  case some.some.some a b c =>
    have hc := concatAll_aligned a [b, c] (by exact h)
    have hm : merge_historic_files (some a) (some b) (some c) = concatAll (a :: [b, c]) := rfl
    refine ⟨by simp [hm, hc], fun out hout => ?_⟩
    rw [hm, hc] at hout
    cases hout
    simp [rowsOf]

/-- Witness for C6: two existing files and one missing one merge into their
rows in order. -/
theorem C6_merge_historic_witness :
    merge_historic_files (some exDetailDf1) none (some exDetailDf3) = none ↔
      some exDetailDf1 = none ∧ (none : Option Df) = none ∧ some exDetailDf3 = none :=
  (C6_merge_historic (some exDetailDf1) none (some exDetailDf3) (by decide)).1

/-! ## Claim C9: update_historic_data partitions by year -/

theorem omap_cons (f : α → Option β) (a : α) (t : List α) :
    omap f (a :: t) = (f a).bind (fun b => (omap f t).map (fun bt => b :: bt)) := by
  cases h1 : f a <;> cases h2 : omap f t <;> simp [omap, h1, h2]

theorem applyMask_eq_filter {mf : List Val → Option Bool} {p : List Val → Bool}
    (hp : ∀ r b, mf r = some b → b = p r) :
    ∀ (rows : List (List Val)) (mask : List Bool),
      omap mf rows = some mask → applyMask rows mask = rows.filter p := by
  intro rows
  induction rows with
  | nil =>
    intro mask hm
    cases hm
    rfl
  | cons r rt ih =>
    intro mask hm
    rw [omap_cons] at hm
    cases hr : mf r with
    | none => rw [hr] at hm; exact absurd hm (by simp)
    | some b =>
      rw [hr] at hm
      cases hrt : omap mf rt with
      | none => rw [hrt] at hm; exact absurd hm (by simp)
      | some bt =>
        rw [hrt] at hm
        cases hm
        have hb : b = p r := hp r b hr
        cases hpr : p r <;>
          simp [applyMask, List.filter_cons, hb, hpr, ih bt hrt]

/-- Claim C9: `update_historic_data` partitions the standardized input by
year — the output is exactly the rows of the standardized `dffl_stats.csv`
whose `Year` is below 2025, unchanged, in their original order, and every
output row has `Year` strictly less than 2025. -/
theorem C9_partition (raw out : Df) (h : update_historic_data raw = some out) :
    ∃ df, standardize_dataframe raw true = some df ∧
      out.header = df.header ∧
      out.rows = df.rows.filter (fun r =>
        match rowCell df.header r "Year" with
        | some (Val.int n) => decide (n < 2025)
        | _ => false) ∧
      ∀ r ∈ out.rows, ∃ n, rowCell out.header r "Year" = some (Val.int n) ∧ n < 2025 := by
  unfold update_historic_data at h
  cases hs : standardize_dataframe raw true with
  | none => rw [hs] at h; exact absurd h (by simp [Bind.bind])
  | some df =>
    rw [hs] at h
    have hf : filterYearLt df 2025 = some out := h
    unfold filterYearLt at hf
    cases hm : omap (fun r => do
        let v ← rowCell df.header r "Year"
        match v with
        | Val.int n => some (decide (n < 2025))
        | _ => none) df.rows with
    | none => rw [hm] at hf; exact absurd hf (by simp [Bind.bind])
    | some mask =>
      rw [hm] at hf
      have hout : out = ⟨df.header, applyMask df.rows mask⟩ := by
        cases hf
        rfl
      have hrows : applyMask df.rows mask = df.rows.filter (fun r =>
          match rowCell df.header r "Year" with
          | some (Val.int n) => decide (n < 2025)
          | _ => false) := by
        refine applyMask_eq_filter ?_ df.rows mask hm
        intro r b hb
        cases hc : rowCell df.header r "Year" with
        | none => rw [hc] at hb; exact absurd hb (by simp [Bind.bind])
        | some v =>
          rw [hc] at hb
          cases v with
          | na => exact absurd hb (by simp [Bind.bind])
          | int n => simp [Bind.bind] at hb; simp [hb]
          | str s => exact absurd hb (by simp [Bind.bind])
      refine ⟨df, rfl, by rw [hout], by rw [hout]; exact hrows, ?_⟩
      intro r hr
      rw [hout] at hr
      simp only at hr
      rw [hrows] at hr
      have hmem := List.of_mem_filter hr
      cases hc : rowCell df.header r "Year" with
      | none => rw [hc] at hmem; exact absurd hmem (by simp)
      | some v =>
        rw [hc] at hmem
        cases v with
        | na => exact absurd hmem (by simp)
        | int n =>
          refine ⟨n, ?_, by simpa using hmem⟩
          rw [hout]
          exact hc
        | str s => exact absurd hmem (by simp)

/-- Witness for C9: the two-year raw export keeps exactly its 2020 row. -/
theorem C9_partition_witness :
    ∃ df, standardize_dataframe exRawStatsDf true = some df ∧
      exHistOut.header = df.header ∧
      exHistOut.rows = df.rows.filter (fun r =>
        match rowCell df.header r "Year" with
        | some (Val.int n) => decide (n < 2025)
        | _ => false) ∧
      ∀ r ∈ exHistOut.rows, ∃ n,
        rowCell exHistOut.header r "Year" = some (Val.int n) ∧ n < 2025 :=
  C9_partition exRawStatsDf exHistOut (by decide)

/-! ## Claim C10: standardize_dataframe does not mutate its argument -/

theorem nth?_append_lt (l l2 : List α) (i : Nat) (h : i < l.length) :
    nth? (l ++ l2) i = nth? l i := by
  induction l generalizing i with
  | nil => exact absurd h (by simp)
  | cons a t ih =>
    cases i with
    | zero => rfl
    | succ j => exact ih j (Nat.lt_of_succ_lt_succ h)

theorem nth?_append_self (l : List α) (a : α) : nth? (l ++ [a]) l.length = some a := by
  induction l with
  | nil => rfl
  | cons x t ih => exact ih

theorem nth?_listSet_ne (l : List α) (i j : Nat) (a : α) (h : i ≠ j) :
    nth? (listSet l i a) j = nth? l j := by
  induction l generalizing i j with
  | nil => rfl
  | cons x t ih =>
    cases i with
    | zero =>
      cases j with
      | zero => exact absurd rfl h
      | succ m => rfl
    | succ n =>
      cases j with
      | zero => rfl
      | succ m => exact ih n m (fun he => h (by rw [he]))

theorem length_listSet (l : List α) (i : Nat) (a : α) :
    (listSet l i a).length = l.length := by
  induction l generalizing i with
  | nil => rfl
  | cons x t ih =>
    cases i with
    | zero => rfl
    | succ n => simp [listSet, ih n]

theorem finishStore_preserve (s : List Df) (c : Nat) (d : Df) (arg : Nat)
    (out : List Df × Nat) (ha : arg < s.length) (h : finishStore s c d = some out) :
    nth? out.1 arg = nth? s arg := by
  simp only [finishStore] at h
  split at h
  · cases h; rfl
  · split at h
    · exact absurd h (by simp)
    · cases h
      exact nth?_append_lt s _ arg ha

/-- Claim C10: the store model of `standardize_dataframe` never changes the
argument object — after a successful run the heap still holds the original
frame at the argument's address (the function copies first and only mutates
fresh objects). -/
theorem storeStep3_preserve (p : List Df × Nat) (d2 : Df) (arg : Nat)
    (out : List Df × Nat) (ha : arg < p.1.length) (hc : p.2 ≠ arg)
    (h : storeStep3 p d2 = some out) :
    nth? out.1 arg = nth? p.1 arg := by
  simp only [storeStep3] at h
  split at h
  · split at h
    · exact absurd h (by simp)
    · have hpres := finishStore_preserve _ _ _ arg out
        (by rw [length_listSet, length_listSet]; exact ha) h
      rw [hpres, nth?_listSet_ne _ _ _ _ hc, nth?_listSet_ne _ _ _ _ hc]
  · exact finishStore_preserve _ _ _ arg out ha h

/-- Claim C10: the store model of `standardize_dataframe` never changes the
argument object — after a successful run the heap still holds the original
frame at the argument's address (the function copies first and only mutates
fresh objects). -/
theorem C10_no_mutation (s : List Df) (arg : Nat) (g : Bool)
    (out : List Df × Nat) (ha : arg < s.length)
    (h : standardize_dataframe_store s arg g = some out) :
    nth? out.1 arg = nth? s arg := by
  cases hv : nth? s arg with
  | none =>
    have hred : standardize_dataframe_store s arg g = none := by
      unfold standardize_dataframe_store
      rw [hv]
    rw [hred] at h
    exact absurd h (by simp)
  | some d0 =>
    have ha1 : arg < (s ++ [d0]).length := by
      simp only [List.length_append, List.length_cons, List.length_nil]
      omega
    have hfin : nth? (s ++ [d0]) arg = some d0 := by
      rw [nth?_append_lt s [d0] arg ha]
      exact hv
    cases g with
    | false =>
      have hred : standardize_dataframe_store s arg false =
          (match nth? (s ++ [d0]) s.length with
           | none => none
           | some d2 => storeStep3 (s ++ [d0], s.length) d2) := by
        unfold standardize_dataframe_store
        rw [hv]
        rfl
      rw [hred, nth?_append_self s d0] at h
      have := storeStep3_preserve (s ++ [d0], s.length) d0 arg out ha1
        (by simp only []; omega) h
      rw [this]
      exact hfin
    | true =>
      have hred : standardize_dataframe_store s arg true =
          (match nth? ((s ++ [d0]) ++
              [d0.rename (COLUMN_MAPPING.filter (fun kv => decide (kv.1 ∈ d0.names)))])
              (s ++ [d0]).length with
           | none => none
           | some d2 => storeStep3 ((s ++ [d0]) ++
              [d0.rename (COLUMN_MAPPING.filter (fun kv => decide (kv.1 ∈ d0.names)))],
              (s ++ [d0]).length) d2) := by
        unfold standardize_dataframe_store
        rw [hv]
        rfl
      rw [hred, nth?_append_self (s ++ [d0])
        (d0.rename (COLUMN_MAPPING.filter (fun kv => decide (kv.1 ∈ d0.names))))] at h
      have ha2 : arg < ((s ++ [d0]) ++
          [d0.rename (COLUMN_MAPPING.filter (fun kv => decide (kv.1 ∈ d0.names)))]).length := by
        simp only [List.length_append, List.length_cons, List.length_nil]
        omega
      have hne2 : (s ++ [d0]).length ≠ arg := by
        simp only [List.length_append, List.length_cons, List.length_nil]
        omega
      have h2 : storeStep3 ((s ++ [d0]) ++
          [d0.rename (COLUMN_MAPPING.filter (fun kv => decide (kv.1 ∈ d0.names)))],
          (s ++ [d0]).length)
          (d0.rename (COLUMN_MAPPING.filter (fun kv => decide (kv.1 ∈ d0.names)))) =
          some out := h
      have := storeStep3_preserve _ _ arg out ha2 hne2 h2
      rw [this, nth?_append_lt _ _ arg ha1]
      exact hfin

/-- Witness for C10: running the store model on a one-object heap leaves the
original frame untouched at address 0. -/
theorem C10_no_mutation_witness :
    nth? [exDfC1, exDfC1,
      ⟨[("Player Number", PyDtype.nullableInt)], [[Val.int 7]]⟩,
      ⟨[("Player Number", PyDtype.obj)], [[Val.str "7"]]⟩] 0 = nth? [exDfC1] 0 :=
  C10_no_mutation [exDfC1] 0 true
    ([exDfC1, exDfC1,
      ⟨[("Player Number", PyDtype.nullableInt)], [[Val.int 7]]⟩,
      ⟨[("Player Number", PyDtype.obj)], [[Val.str "7"]]⟩], 3) (by decide) (by decide)

/-! ## Claim C1: what standardize_dataframe does -/

theorem castRowAux_nil_convs : ∀ (hdr : List (String × PyDtype)) (r : List Val),
    castRowAux [] hdr r = some r := by
  intro hdr
  induction hdr with
  | nil => intro r; rfl
  | cons cd ht ih =>
    intro r
    cases r with
    | nil => rfl
    | cons v vt => simp [castRowAux, castCell, alook, ih vt]

theorem omap_some_map {f : α → Option β} {g : α → β} :
    ∀ {l : List α}, (∀ a ∈ l, f a = some (g a)) → omap f l = some (l.map g) := by
  intro l
  induction l with
  | nil => intro _; rfl
  | cons a t ih =>
    intro h
    rw [omap_cons, h a (by simp), ih (fun x hx => h x (by simp [hx]))]
    rfl

theorem astype_nil (d : Df) : d.astype [] = some d := by
  unfold Df.astype
  rw [omap_some_map (g := id) (fun r _ => castRowAux_nil_convs d.header r)]
  simp [alook]

theorem castCell_cons (c : String) (t : PyDtype) (rest : List (String × PyDtype))
    (cd : String × PyDtype) (v : Val) (hc : c ∉ rest.map Prod.fst) :
    castCell ((c, t) :: rest) cd v =
      (castCell [(c, t)] cd v).bind
        (castCell rest (if cd.1 = c then (cd.1, t) else cd)) := by
  by_cases hcd : cd.1 = c
  · have hrest : alook c rest = none := alook_eq_none_of_not_mem c rest hc
    have h1 : castCell ((c, t) :: rest) cd v = castVal cd.2 t v := by
      simp [castCell, alook, hcd]
    have h2 : castCell [(c, t)] cd v = castVal cd.2 t v := by
      simp [castCell, alook, hcd]
    have h3 : ∀ w, castCell rest (cd.1, t) w = some w := by
      intro w
      simp [castCell, hcd, hrest]
    rw [h1, h2, if_pos hcd]
    cases hv : castVal cd.2 t v with
    | none => rfl
    | some w => simp [h3 w]
  · have hne : ¬ c = cd.1 := fun he => hcd he.symm
    have h2 : castCell [(c, t)] cd v = some v := by simp [castCell, alook, hne]
    rw [h2, if_neg hcd, Option.some_bind]
    simp [castCell, alook, hne]

theorem castRowAux_cons (c : String) (t : PyDtype) (rest : List (String × PyDtype))
    (hc : c ∉ rest.map Prod.fst) :
    ∀ (hdr : List (String × PyDtype)) (r : List Val),
      castRowAux ((c, t) :: rest) hdr r =
        (castRowAux [(c, t)] hdr r).bind
          (castRowAux rest (hdr.map (fun cd => if cd.1 = c then (cd.1, t) else cd))) := by
  intro hdr
  induction hdr with
  | nil => intro r; rfl
  | cons cd ht ih =>
    intro r
    cases r with
    | nil => rfl
    | cons v vt =>
      have hL : castRowAux ((c, t) :: rest) (cd :: ht) (v :: vt) =
          (match castCell ((c, t) :: rest) cd v, castRowAux ((c, t) :: rest) ht vt with
           | some w, some wt => some (w :: wt)
           | _, _ => none) := rfl
      have hR : castRowAux [(c, t)] (cd :: ht) (v :: vt) =
          (match castCell [(c, t)] cd v, castRowAux [(c, t)] ht vt with
           | some w, some wt => some (w :: wt)
           | _, _ => none) := rfl
      rw [hL, hR, castCell_cons c t rest cd v hc, ih vt]
      cases h1 : castCell [(c, t)] cd v with
      | none => rfl
      | some w =>
        cases h2 : castRowAux [(c, t)] ht vt with
        | none =>
          simp only [Option.some_bind, Option.none_bind]
          cases hcw : castCell rest (if cd.1 = c then (cd.1, t) else cd) w <;> rfl
        | some wt =>
          simp only [Option.some_bind]
          rfl

theorem omap_bind {f : α → Option β} {g : β → Option γ} :
    ∀ (l : List α), omap (fun a => (f a).bind g) l = (omap f l).bind (omap g) := by
  intro l
  induction l with
  | nil => rfl
  | cons a t ih =>
    rw [omap_cons, omap_cons, ih]
    cases hf : f a with
    | none => rfl
    | some b =>
      cases hft : omap f t with
      | none =>
        simp only [Option.some_bind, Option.none_bind, Option.map_none']
        cases g b <;> rfl
      | some bs =>
        simp only [Option.some_bind, Option.map_some']
        exact (omap_cons g b bs).symm

theorem castCol_names (d : Df) (c : String) (t : PyDtype) (d' : Df)
    (h : d.castCol c t = some d') : d'.names = d.names := by
  unfold Df.castCol at h
  split at h
  · cases hm : omap (castRowAux [(c, t)] d.header) d.rows <;> rw [hm] at h
    · exact absurd h (by simp)
    · simp only [Option.map_some', Option.some.injEq] at h
      rw [← h]
      unfold Df.names
      simp only [List.map_map]
      refine List.map_congr_left (fun cd _ => ?_)
      by_cases hcd : cd.1 = c <;> simp [hcd]
  · exact absurd h (by simp)

theorem astype_cons (d : Df) (c : String) (t : PyDtype)
    (rest : List (String × PyDtype)) (hc : c ∉ rest.map Prod.fst)
    (hmem : c ∈ d.names) :
    d.astype ((c, t) :: rest) = (d.castCol c t).bind (fun d' => d'.astype rest) := by
  unfold Df.astype Df.castCol
  rw [if_pos hmem]
  have hrows : omap (castRowAux ((c, t) :: rest) d.header) d.rows =
      (omap (castRowAux [(c, t)] d.header) d.rows).bind
        (omap (castRowAux rest
          (d.header.map (fun cd => if cd.1 = c then (cd.1, t) else cd)))) := by
    rw [show omap (castRowAux ((c, t) :: rest) d.header) d.rows =
        omap (fun r => (castRowAux [(c, t)] d.header r).bind
          (castRowAux rest
            (d.header.map (fun cd => if cd.1 = c then (cd.1, t) else cd)))) d.rows from
      congrFun (congrArg omap (funext (fun r => castRowAux_cons c t rest hc d.header r)))
        d.rows]
    exact omap_bind d.rows
  rw [hrows]
  cases h1 : omap (castRowAux [(c, t)] d.header) d.rows with
  | none => rfl
  | some rs =>
    simp only [Option.some_bind, Option.map_some']
    cases h2 : omap (castRowAux rest
        (d.header.map (fun cd => if cd.1 = c then (cd.1, t) else cd))) rs with
    | none => rfl
    | some rs2 =>
      simp only [Option.map_some']
      refine congrArg some (congrArg (fun h => Df.mk h rs2) ?_)
      simp only [List.map_map]
      refine List.map_congr_left (fun cd _ => ?_)
      by_cases hcd : cd.1 = c
      · have hrest : alook c rest = none := alook_eq_none_of_not_mem c rest hc
        simp [alook, hcd, hrest]
      · have hne : ¬ c = cd.1 := fun he => hcd he.symm
        simp [alook, hcd, hne]

theorem castRowAux_congr {convs1 convs2 : List (String × PyDtype)} :
    ∀ (hdr : List (String × PyDtype)),
      (∀ cd ∈ hdr, ∀ v, castCell convs1 cd v = castCell convs2 cd v) →
      ∀ r, castRowAux convs1 hdr r = castRowAux convs2 hdr r := by
  intro hdr
  induction hdr with
  | nil => intro _ r; rfl
  | cons cd ht ih =>
    intro h r
    cases r with
    | nil => rfl
    | cons v vt =>
      simp only [castRowAux]
      rw [h cd (by simp) v, ih (fun x hx w => h x (by simp [hx]) w) vt]

theorem astype_drop (d : Df) (c : String) (t : PyDtype)
    (rest : List (String × PyDtype)) (hc : c ∉ d.names) :
    d.astype ((c, t) :: rest) = d.astype rest := by
  have hcd1 : ∀ cd ∈ d.header, ¬ c = cd.1 := by
    intro cd hcd he
    exact hc (he ▸ List.mem_map_of_mem Prod.fst hcd)
  unfold Df.astype
  rw [show omap (castRowAux ((c, t) :: rest) d.header) d.rows =
      omap (castRowAux rest d.header) d.rows from
    congrFun (congrArg omap (funext (castRowAux_congr d.header
      (fun cd hcd v => by simp [castCell, alook, hcd1 cd hcd])))) d.rows]
  cases h1 : omap (castRowAux rest d.header) d.rows with
  | none => rfl
  | some rs =>
    simp only [Option.map_some']
    refine congrArg some (congrArg (fun h => Df.mk h rs) ?_)
    refine List.map_congr_left (fun cd hcd => ?_)
    simp [alook, hcd1 cd hcd]

theorem fold_guard_filter :
    ∀ (convs : List (String × PyDtype)) (d : Df),
      convs.foldlM
        (fun d cd => if cd.1 ∈ d.names then d.castCol cd.1 cd.2 else pure d) d =
      (convs.filter (fun cd => decide (cd.1 ∈ d.names))).foldlM
        (fun d cd => if cd.1 ∈ d.names then d.castCol cd.1 cd.2 else pure d) d := by
  intro convs
  induction convs with
  | nil => intro d; rfl
  | cons c0 rest ih =>
    intro d
    by_cases hm : c0.1 ∈ d.names
    · rw [List.filter_cons_of_pos (by simpa using hm)]
      rw [List.foldlM_cons, List.foldlM_cons, if_pos hm]
      cases hcc : d.castCol c0.1 c0.2 with
      | none => rfl
      | some d' =>
        simp only [Option.bind_eq_bind, Option.some_bind]
        rw [ih d']
        have hnames := castCol_names d c0.1 c0.2 d' hcc
        rw [show rest.filter (fun cd => decide (cd.1 ∈ d'.names)) =
            rest.filter (fun cd => decide (cd.1 ∈ d.names)) from
          List.filter_congr (fun cd _ => by rw [hnames])]
    · rw [List.filter_cons_of_neg (by simpa using hm)]
      rw [List.foldlM_cons, if_neg hm]
      rw [show (pure d >>= fun b =>
          rest.foldlM
            (fun d cd => if cd.1 ∈ d.names then d.castCol cd.1 cd.2 else pure d) b) =
          rest.foldlM
            (fun d cd => if cd.1 ∈ d.names then d.castCol cd.1 cd.2 else pure d) d from
        rfl]
      exact ih d

theorem fold_eq_astype :
    ∀ (convs : List (String × PyDtype)) (d : Df),
      (convs.map Prod.fst).Nodup → (∀ cd ∈ convs, cd.1 ∈ d.names) →
      convs.foldlM
        (fun d cd => if cd.1 ∈ d.names then d.castCol cd.1 cd.2 else pure d) d =
      d.astype convs := by
  intro convs
  induction convs with
  | nil => intro d _ _; exact (astype_nil d).symm
  | cons c0 rest ih =>
    intro d hnd hpres
    obtain ⟨c, t⟩ := c0
    have hnd2 : (c :: rest.map Prod.fst).Nodup := by
      simpa only [List.map_cons] using hnd
    have hnd' := List.nodup_cons.mp hnd2
    have hc0 : c ∉ rest.map Prod.fst := hnd'.1
    have hmem : c ∈ d.names := hpres (c, t) (by simp)
    rw [List.foldlM_cons, if_pos hmem, astype_cons d c t rest hc0 hmem]
    cases hcc : d.castCol c t with
    | none => rfl
    | some d' =>
      simp only [Option.bind_eq_bind, Option.some_bind]
      refine ih d' hnd'.2 ?_
      intro cd hcd
      rw [castCol_names d c t d' hcc]
      exact hpres cd (by simp [hcd])

theorem post_tail_eq_fold (d2 : Df) :
    (if (EXPECTED_COLUMNS.filter (fun cd => decide (cd.1 ∈ d2.names))).isEmpty
     then pure d2
     else d2.astype (EXPECTED_COLUMNS.filter (fun cd => decide (cd.1 ∈ d2.names)))) =
    EXPECTED_COLUMNS.foldlM
      (fun d cd => if cd.1 ∈ d.names then d.castCol cd.1 cd.2 else pure d) d2 := by
  rw [fold_guard_filter EXPECTED_COLUMNS d2]
  have hndAll : (EXPECTED_COLUMNS.map Prod.fst).Nodup := by decide
  have hnd : ((EXPECTED_COLUMNS.filter
      (fun cd => decide (cd.1 ∈ d2.names))).map Prod.fst).Nodup :=
    hndAll.sublist ((List.filter_sublist EXPECTED_COLUMNS).map Prod.fst)
  have hpres : ∀ cd ∈ EXPECTED_COLUMNS.filter (fun cd => decide (cd.1 ∈ d2.names)),
      cd.1 ∈ d2.names := by
    intro cd hcd
    exact of_decide_eq_true (List.mem_filter.mp hcd).2
  cases hE : (EXPECTED_COLUMNS.filter (fun cd => decide (cd.1 ∈ d2.names))).isEmpty with
  | true =>
    rw [if_pos rfl]
    rw [List.isEmpty_iff.mp hE]
    rfl
  | false =>
    rw [if_neg (by simp [hE])]
    exact (fold_eq_astype _ d2 hnd hpres).symm

/-- Claim C1 counterexample: on a one-column frame holding a German
`Spielernummer` column, the claimed behaviour leaves `Player Number` as a
nullable `'Int64'` column of cleaned integers, but `standardize_dataframe`
ends with `Player Number` as a string column — the final `astype` pass also
contains `'Player Number': str` and re-casts the cleaned column. -/
theorem C1_counterexample :
    standardize_dataframe exDfC1 true =
      some ⟨[("Player Number", .obj)], [[.str "7"]]⟩ ∧
    standardizeClaimedC1 exDfC1 true =
      some ⟨[("Player Number", .nullableInt)], [[.int 7]]⟩ ∧
    standardize_dataframe exDfC1 true ≠ standardizeClaimedC1 exDfC1 true :=
  ⟨by decide, by decide, by decide⟩

/-- Claim C1, amended: `standardize_dataframe` renames exactly the
`COLUMN_MAPPING` keys when `is_german` and leaves other columns unchanged;
it then cleans `Player Number` via `clean_player_number` and casts it to
nullable `'Int64'`, and finally casts each `EXPECTED_COLUMNS` column that is
present to its expected dtype — including `Player Number`, which is listed
with expected dtype `str` and therefore ends as a string column.  With
`is_german=False` the renaming is skipped and the rest is identical. -/
theorem C1_amended (df : Df) (g : Bool) :
    standardize_dataframe df g = standardizeAmendedC1 df g := by
  unfold standardize_dataframe standardizeAmendedC1 postStandardize
  rw [rename_filter]
  by_cases hpn : "Player Number" ∈ (if g = true then renameByMapping df else df).names
  · simp only [if_pos hpn, Option.bind_eq_bind]
    exact Option.bind_congr (fun d2 _ => post_tail_eq_fold d2)
  · simp only [if_neg hpn, Option.bind_eq_bind]
    exact Option.bind_congr (fun d2 _ => post_tail_eq_fold d2)

/-! ## Merge machinery (claims C3 and C7) -/

theorem nodupB_iff [DecidableEq α] : ∀ (l : List α), nodupB l = true ↔ l.Nodup := by
  intro l
  induction l with
  | nil => simp [nodupB]
  | cons a t ih => simp [nodupB, List.nodup_cons, ih]

theorem flatten_map_singleton (l : List α) (f : α → β) :
    (l.map (fun a => [f a])).flatten = l.map f := by
  induction l with
  | nil => rfl
  | cons a t ih => simp [ih]

theorem mem_dedupAux : ∀ (seen l : List (List Val)) (a : List Val),
    a ∈ dedupAux seen l ↔ a ∈ l ∧ a ∉ seen := by
  intro seen l
  induction l generalizing seen with
  | nil => intro a; simp [dedupAux]
  | cons r t ih =>
    intro a
    by_cases hr : r ∈ seen
    · simp only [dedupAux, if_pos hr, ih, List.mem_cons]
      constructor
      · rintro ⟨hat, hns⟩
        exact ⟨Or.inr hat, hns⟩
      · rintro ⟨har | hat, hns⟩
        · exact absurd (har ▸ hr) hns
        · exact ⟨hat, hns⟩
    · simp only [dedupAux, if_neg hr, List.mem_cons, ih (r :: seen)]
      constructor
      · rintro (rfl | ⟨hat, hns⟩)
        · exact ⟨Or.inl rfl, hr⟩
        · simp only [List.mem_cons, not_or] at hns
          exact ⟨Or.inr hat, hns.2⟩
      · rintro ⟨har | hat, hns⟩
        · exact Or.inl har
        · by_cases hae : a = r
          · exact Or.inl hae
          · refine Or.inr ⟨hat, ?_⟩
            simp only [List.mem_cons, not_or]
            exact ⟨hae, hns⟩

theorem nodup_dedupAux : ∀ (seen l : List (List Val)), (dedupAux seen l).Nodup := by
  intro seen l
  induction l generalizing seen with
  | nil => exact List.nodup_nil
  | cons r t ih =>
    by_cases hr : r ∈ seen
    · simpa [dedupAux, if_pos hr] using ih seen
    · simp only [dedupAux, if_neg hr, List.nodup_cons]
      refine ⟨fun hmem => ?_, ih (r :: seen)⟩
      exact ((mem_dedupAux (r :: seen) t r).mp hmem).2 (by simp)

theorem matches_of_assoc (hdr : List (String × PyDtype)) (keys rNames : List String) :
    ∀ (rrows : List (List Val)) (assoc : List (List Val × List Val)),
      omap (rowEntry hdr keys rNames) rrows = some assoc →
      (assoc.map Prod.fst).Nodup →
      ∀ k : List Val,
        (alook k assoc = none →
          rrows.filter (fun rr => decide (keyOfRow hdr keys rr = some k)) = []) ∧
        (∀ cs, alook k assoc = some cs →
          ∃ rr, rrows.filter (fun rr => decide (keyOfRow hdr keys rr = some k)) = [rr] ∧
                keyOfRow hdr keys rr = some k ∧
                omap (rowCell hdr rr) rNames = some cs) := by
  intro rrows
  induction rrows with
  | nil =>
    intro assoc h _ k
    cases h
    exact ⟨fun _ => rfl, fun cs hcs => absurd hcs (by simp [alook])⟩
  | cons rr rt ih =>
    intro assoc h hnd k
    rw [omap_cons] at h
    cases he : rowEntry hdr keys rNames rr with
    | none => rw [he] at h; exact absurd h (by simp)
    | some e =>
      rw [he] at h
      cases hrt : omap (rowEntry hdr keys rNames) rt with
      | none => rw [hrt] at h; exact absurd h (by simp)
      | some at1 =>
        rw [hrt] at h
        simp only [Option.some_bind, Option.map_some', Option.some.injEq] at h
        subst h
        unfold rowEntry at he
        cases hk : keyOfRow hdr keys rr with
        | none => rw [hk] at he; exact absurd he (by simp)
        | some k0 =>
          rw [hk] at he
          cases hcs0 : omap (rowCell hdr rr) rNames with
          | none => rw [hcs0] at he; exact absurd he (by simp)
          | some cs0 =>
            rw [hcs0] at he
            simp only [Option.some.injEq] at he
            subst he
            have hnd' : (at1.map Prod.fst).Nodup ∧ k0 ∉ at1.map Prod.fst := by
              simp only [List.map_cons, List.nodup_cons] at hnd
              exact ⟨hnd.2, hnd.1⟩
            by_cases hke : k0 = k
            · subst hke
              constructor
              · intro h0
                rw [show alook k0 ((k0, cs0) :: at1) = some cs0 from by
                  simp [alook]] at h0
                exact absurd h0 (by simp)
              · intro cs hcs
                rw [show alook k0 ((k0, cs0) :: at1) = some cs0 from by
                  simp [alook]] at hcs
                cases hcs
                refine ⟨rr, ?_, hk, hcs0⟩
                rw [List.filter_cons_of_pos (by simp [hk])]
                rw [(ih at1 hrt hnd'.1 k0).1
                  (alook_eq_none_of_not_mem k0 at1 hnd'.2)]
            · have halk : alook k ((k0, cs0) :: at1) = alook k at1 := by
                simp [alook, hke]
              have hfilt : (rr :: rt).filter
                  (fun rr => decide (keyOfRow hdr keys rr = some k)) =
                  rt.filter (fun rr => decide (keyOfRow hdr keys rr = some k)) := by
                refine List.filter_cons_of_neg ?_
                simp [hk, hke]
              rw [halk, hfilt]
              exact ih at1 hrt hnd'.1 k

theorem leftMerge_char (l r : Df) (keys : List String) (lsuf rsuf : String)
    (assoc : List (List Val × List Val))
    (hr : rowsAssoc r keys = some assoc)
    (hnd : (assoc.map Prod.fst).Nodup)
    (hlk : ∀ lr ∈ l.rows, (keyOfRow l.header keys lr).isSome) :
    l.leftMerge r keys lsuf rsuf = some ⟨mergedHeader l r keys lsuf rsuf,
      l.rows.map (fun lr => lr ++ mergeCells assoc
        (((nonKeyCols r.header keys).map Prod.fst).map (fun _ => Val.na))
        (keyOfRow l.header keys lr))⟩ := by
  have hred : l.leftMerge r keys lsuf rsuf =
      (omap (fun lr => do
        let k ← keyOfRow l.header keys lr
        let ms := r.rows.filter (fun rr => decide (keyOfRow r.header keys rr = some k))
        if ms.isEmpty then
          pure [lr ++ ((nonKeyCols r.header keys).map Prod.fst).map (fun _ => Val.na)]
        else
          omap (fun rr => (omap (rowCell r.header rr)
            ((nonKeyCols r.header keys).map Prod.fst)).map (lr ++ ·)) ms)
        l.rows).bind (fun groups =>
          some ⟨mergedHeader l r keys lsuf rsuf, groups.flatten⟩) := rfl
  have hpoint : ∀ lr ∈ l.rows,
      (do
        let k ← keyOfRow l.header keys lr
        let ms := r.rows.filter (fun rr => decide (keyOfRow r.header keys rr = some k))
        if ms.isEmpty then
          pure [lr ++ ((nonKeyCols r.header keys).map Prod.fst).map (fun _ => Val.na)]
        else
          omap (fun rr => (omap (rowCell r.header rr)
            ((nonKeyCols r.header keys).map Prod.fst)).map (lr ++ ·)) ms :
        Option (List (List Val))) =
      some [lr ++ mergeCells assoc
        (((nonKeyCols r.header keys).map Prod.fst).map (fun _ => Val.na))
        (keyOfRow l.header keys lr)] := by
    intro lr hlr
    obtain ⟨k, hk⟩ := Option.isSome_iff_exists.mp (hlk lr hlr)
    rw [hk]
    simp only [Option.bind_eq_bind, Option.some_bind]
    have hm := matches_of_assoc r.header keys
      ((nonKeyCols r.header keys).map Prod.fst) r.rows assoc hr hnd k
    cases halk : alook k assoc with
    | none =>
      rw [hm.1 halk]
      simp [mergeCells, halk]
    | some cs =>
      obtain ⟨rr, hfil, _hkey, hext⟩ := hm.2 cs halk
      rw [hfil]
      rw [show (([rr] : List (List Val)).isEmpty) = false from rfl]
      simp only [Bool.false_eq_true, if_false]
      rw [omap_cons, hext]
      simp [omap, mergeCells, halk]
  rw [hred, omap_some_map hpoint]
  simp only [Option.some_bind]
  rw [flatten_map_singleton]

/-! ## Claim C7: the player-name join -/

theorem pm_rowsAssoc (dT dP dN : PyDtype) (assoc : List ((Val × Val) × Val)) :
    omap (rowEntry [("Team", dT), ("Player Number", dP), ("Name", dN)]
        ["Team", "Player Number"] ["Name"])
      (assoc.map (fun e => [e.1.1, e.1.2, e.2])) =
    some (assoc.map (fun e => ([e.1.1, e.1.2], [e.2]))) := by
  induction assoc with
  | nil => rfl
  | cons e t ih =>
    rw [List.map_cons, omap_cons, ih]
    rfl

theorem pm_keys (dT dP dN : PyDtype) (assoc : List ((Val × Val) × Val)) :
    omap (keyOfRow [("Team", dT), ("Player Number", dP), ("Name", dN)]
        ["Team", "Player Number"])
      (assoc.map (fun e => [e.1.1, e.1.2, e.2])) =
    some (assoc.map (fun e => [e.1.1, e.1.2])) := by
  induction assoc with
  | nil => rfl
  | cons e t ih =>
    rw [List.map_cons, omap_cons, ih]
    rfl

theorem pairListInj : Function.Injective (fun p : Val × Val => [p.1, p.2]) := by
  intro p q hpq
  simp only [List.cons.injEq, and_true] at hpq
  exact Prod.ext hpq.1 hpq.2

theorem alook_pair (a b : Val) (assoc : List ((Val × Val) × Val)) :
    alook [a, b] (assoc.map (fun e => ([e.1.1, e.1.2], [e.2]))) =
      (alook (a, b) assoc).map (fun x => [x]) := by
  induction assoc with
  | nil => rfl
  | cons e t ih =>
    simp only [List.map_cons, alook]
    have hcond : ([e.1.1, e.1.2] = [a, b]) ↔ e.1 = (a, b) := by
      constructor
      · intro h
        simp only [List.cons.injEq, and_true] at h
        exact Prod.ext h.1 h.2
      · intro h
        rw [h]
    by_cases he : e.1 = (a, b)
    · rw [if_pos (hcond.mpr he), if_pos he]
      rfl
    · rw [if_neg (fun hx => he (hcond.mp hx)), if_neg he]
      exact ih

theorem assoc_keys_nodup (assoc : List ((Val × Val) × Val))
    (hnd : (assoc.map Prod.fst).Nodup) :
    ((assoc.map (fun e => ([e.1.1, e.1.2], [e.2]))).map Prod.fst).Nodup := by
  rw [show (assoc.map (fun e => ([e.1.1, e.1.2], [e.2]))).map Prod.fst =
      (assoc.map Prod.fst).map (fun p => [p.1, p.2]) from by
    simp [List.map_map]]
  exact hnd.map pairListInj

/-- Claim C7: under the precondition that each (Team, Player Number) key
occurs at most once in the player mapping, the player-name merge keeps
exactly one row per input event row with all original columns unchanged and
appends a `Name` column holding the mapped player's name, or a missing value
when the key is absent from the mapping. -/
theorem C7_player_name_join (df pm : Df) (dT dP dN : PyDtype)
    (assoc : List ((Val × Val) × Val))
    (hhdr : pm.header = [("Team", dT), ("Player Number", dP), ("Name", dN)])
    (hrows : pm.rows = assoc.map (fun e => [e.1.1, e.1.2, e.2]))
    (hnd : (assoc.map Prod.fst).Nodup)
    (hk : ∀ r ∈ df.rows, (rowCell df.header r "Team").isSome ∧
          (rowCell df.header r "Player Number").isSome)
    (hnoName : "Name" ∉ df.names) :
    mergedPlayers df pm = some ⟨df.header ++ [("Name", dN)],
      df.rows.map (fun r => r ++ [nameForRow assoc df.header r])⟩ ∧
    ∀ out, mergedPlayers df pm = some out → out.rows.length = df.rows.length := by
  have hkey : ∀ r ∈ df.rows, keyOfRow df.header ["Team", "Player Number"] r =
      some [(rowCell df.header r "Team").getD .na,
            (rowCell df.header r "Player Number").getD .na] := by
    intro r hr
    obtain ⟨tv, htv⟩ := Option.isSome_iff_exists.mp (hk r hr).1
    obtain ⟨pv, hpv⟩ := Option.isSome_iff_exists.mp (hk r hr).2
    unfold keyOfRow
    rw [show (["Team", "Player Number"] : List String) =
        "Team" :: ["Player Number"] from rfl, omap_cons, omap_cons, htv, hpv]
    simp [omap]
  have hvalid : rightKeysUniqueB pm ["Team", "Player Number"] = true := by
    unfold rightKeysUniqueB
    rw [hhdr, hrows, pm_keys dT dP dN assoc]
    rw [nodupB_iff]
    rw [show assoc.map (fun e => [e.1.1, e.1.2]) =
        (assoc.map Prod.fst).map (fun p => [p.1, p.2]) from by
      simp [List.map_map]]
    exact hnd.map pairListInj
  have hassoc : rowsAssoc pm ["Team", "Player Number"] =
      some (assoc.map (fun e => ([e.1.1, e.1.2], [e.2]))) := by
    unfold rowsAssoc
    rw [hhdr, hrows]
    exact pm_rowsAssoc dT dP dN assoc
  have hmerge := leftMerge_char df pm ["Team", "Player Number"] "_x" "_y"
    (assoc.map (fun e => ([e.1.1, e.1.2], [e.2]))) hassoc
    (assoc_keys_nodup assoc hnd)
    (fun lr hlr => by rw [hkey lr hlr]; rfl)
  have hmh : mergedHeader df pm ["Team", "Player Number"] "_x" "_y" =
      df.header ++ [("Name", dN)] := by
    unfold mergedHeader
    rw [hhdr]
    refine congrArg₂ (· ++ ·) ?_ ?_
    · have hpt : ∀ cd ∈ df.header,
          ((if decide (cd.1 ∈ ((nonKeyCols [("Team", dT), ("Player Number", dP),
              ("Name", dN)] ["Team", "Player Number"]).map Prod.fst)) then
            cd.1 ++ "_x" else cd.1, cd.2) : String × PyDtype) = cd := by
        intro cd hcd
        have hne : cd.1 ≠ "Name" := by
          intro he
          exact hnoName (he ▸ List.mem_map_of_mem Prod.fst hcd)
        rw [show ((nonKeyCols [("Team", dT), ("Player Number", dP), ("Name", dN)]
            ["Team", "Player Number"]).map Prod.fst) = ["Name"] from rfl]
        simp [hne]
      calc df.header.map _ = df.header.map id := List.map_congr_left hpt
        _ = df.header := List.map_id df.header
    · rw [show ((nonKeyCols [("Team", dT), ("Player Number", dP), ("Name", dN)]
          ["Team", "Player Number"])) = [("Name", dN)] from rfl]
      simp [hnoName]
  have hrowsEq : df.rows.map (fun lr => lr ++ mergeCells
        (assoc.map (fun e => ([e.1.1, e.1.2], [e.2])))
        (((nonKeyCols pm.header ["Team", "Player Number"]).map Prod.fst).map
          (fun _ => Val.na))
        (keyOfRow df.header ["Team", "Player Number"] lr)) =
      df.rows.map (fun r => r ++ [nameForRow assoc df.header r]) := by
    refine List.map_congr_left (fun r hr => ?_)
    rw [hkey r hr]
    have hfill : (((nonKeyCols pm.header ["Team", "Player Number"]).map Prod.fst).map
        (fun _ => Val.na)) = [Val.na] := by
      rw [hhdr]
      rfl
    rw [hfill]
    simp only [mergeCells]
    rw [alook_pair]
    unfold nameForRow
    cases halk : alook ((rowCell df.header r "Team").getD .na,
        (rowCell df.header r "Player Number").getD .na) assoc with
    | none => simp
    | some lg => simp
  constructor
  · rw [show mergedPlayers df pm =
        df.leftMerge pm ["Team", "Player Number"] "_x" "_y" from by
      unfold mergedPlayers
      rw [hvalid]
      rfl]
    rw [hmerge, hmh]
    exact congrArg some (congrArg (Df.mk (df.header ++ [("Name", dN)])) hrowsEq)
  · intro out hout
    rw [show mergedPlayers df pm =
        df.leftMerge pm ["Team", "Player Number"] "_x" "_y" from by
      unfold mergedPlayers
      rw [hvalid]
      rfl, hmerge] at hout
    cases hout
    simp

/-- Witness for C7: joining the example mapping onto the example stats frame
appends the mapped name (missing for the unmapped Potsdam player). -/
theorem C7_player_name_join_witness :
    mergedPlayers exStatsDf exPlayerMapDf =
      some ⟨exStatsDf.header ++ [("Name", PyDtype.obj)],
        exStatsDf.rows.map (fun r =>
          r ++ [nameForRow exPlayerAssoc exStatsDf.header r])⟩ ∧
    ∀ out, mergedPlayers exStatsDf exPlayerMapDf = some out →
      out.rows.length = exStatsDf.rows.length :=
  C7_player_name_join exStatsDf exPlayerMapDf PyDtype.obj PyDtype.nullableInt
    PyDtype.obj exPlayerAssoc rfl rfl (by decide) (by decide) (by decide)

/-! ## Claim C3: the league assignment per team-year -/

theorem alook_mem [DecidableEq κ] (k : κ) (l : List (κ × α)) (v : α)
    (h : alook k l = some v) : (k, v) ∈ l := by
  induction l with
  | nil => exact absurd h (by simp [alook])
  | cons e t ih =>
    unfold alook at h
    by_cases he : e.1 = k
    · rw [if_pos he] at h
      cases h
      have : (k, e.2) = e := by
        rw [← he]
      rw [this]
      exact List.mem_cons_self e t
    · rw [if_neg he] at h
      exact List.mem_cons_of_mem e (ih h)

theorem alook_self_map (f : List Val → List Val) :
    ∀ (l : List (List Val)) (k : List Val), k ∈ l →
      alook k (l.map (fun p => (p, f p))) = some (f k) := by
  intro l
  induction l with
  | nil => intro k hk; exact absurd hk (by simp)
  | cons p t ih =>
    intro k hk
    by_cases hp : p = k
    · subst hp
      simp [alook]
    · have hk' : k ∈ t := by
        cases hk with
        | head => exact absurd rfl hp
        | tail _ h => exact h
      simp only [List.map_cons, alook, if_neg hp]
      exact ih k hk'

theorem select_YT (df : Df) (dY dT : PyDtype)
    (hY : alook "Year" df.header = some dY)
    (hT : alook "Team" df.header = some dT)
    (hcells : ∀ r ∈ df.rows, (∃ y, rowCell df.header r "Year" = some (.int y)) ∧
        (rowCell df.header r "Team").isSome) :
    df.select ["Year", "Team"] =
      some ⟨[("Year", dY), ("Team", dT)], df.rows.map (ytKey df.header)⟩ := by
  have hh : omap (fun c => (alook c df.header).map (fun d => (c, d)))
      ["Year", "Team"] = some [("Year", dY), ("Team", dT)] := by
    rw [show (["Year", "Team"] : List String) = "Year" :: ["Team"] from rfl,
      omap_cons, omap_cons, hY, hT]
    rfl
  have hrws : omap (fun r => omap (rowCell df.header r) ["Year", "Team"]) df.rows =
      some (df.rows.map (ytKey df.header)) := by
    refine omap_some_map (fun r hr => ?_)
    obtain ⟨⟨y, hy⟩, htm⟩ := hcells r hr
    obtain ⟨tv, htv⟩ := Option.isSome_iff_exists.mp htm
    rw [show (["Year", "Team"] : List String) = "Year" :: ["Team"] from rfl,
      omap_cons, omap_cons, hy, htv]
    simp [omap, ytKey, hy, htv]
  rw [show df.select ["Year", "Team"] =
      (omap (fun c => (alook c df.header).map (fun d => (c, d))) ["Year", "Team"]).bind
        (fun hdr => (omap (fun r => omap (rowCell df.header r) ["Year", "Team"])
          df.rows).bind (fun rows => some ⟨hdr, rows⟩)) from rfl,
    hh, hrws]
  rfl

theorem addLeague (dY dT : PyDtype) (pairs : List (List Val))
    (hshape : ∀ p ∈ pairs, ∃ y tv, p = [Val.int y, tv]) :
    Df.addColApply ⟨[("Year", dY), ("Team", dT)], pairs⟩ "League" "Year"
      leagueOfYearVal =
    some ⟨[("Year", dY), ("Team", dT), ("League", PyDtype.obj)],
      pairs.map (fun p => p ++ [dfltOf p])⟩ := by
  have hrows : omap (fun r => do
      let v ← rowCell ([("Year", dY), ("Team", dT)]) r "Year"
      let w ← leagueOfYearVal v
      pure (r ++ [w])) pairs = some (pairs.map (fun p => p ++ [dfltOf p])) := by
    refine omap_some_map (fun p hp => ?_)
    obtain ⟨y, tv, rfl⟩ := hshape p hp
    rfl
  rw [show Df.addColApply ⟨[("Year", dY), ("Team", dT)], pairs⟩ "League" "Year"
        leagueOfYearVal =
      (omap (fun r => do
        let v ← rowCell ([("Year", dY), ("Team", dT)]) r "Year"
        let w ← leagueOfYearVal v
        pure (r ++ [w])) pairs).bind (fun rows =>
          some ⟨[("Year", dY), ("Team", dT)] ++ [("League", PyDtype.obj)], rows⟩)
      from rfl, hrows]
  rfl

theorem lm_rowsAssoc (dY2 dT2 dL2 : PyDtype) (assoc : List ((Val × Val) × Val)) :
    omap (rowEntry [("Year", dY2), ("Team", dT2), ("League", dL2)]
        ["Year", "Team"] ["League"])
      (assoc.map (fun e => [e.1.1, e.1.2, e.2])) =
    some (assoc.map (fun e => ([e.1.1, e.1.2], [e.2]))) := by
  induction assoc with
  | nil => rfl
  | cons e t ih =>
    rw [List.map_cons, omap_cons, ih]
    rfl

theorem merge1_char (dY dT : PyDtype) (lmS : Df) (dY2 dT2 dL2 : PyDtype)
    (assoc : List ((Val × Val) × Val)) (pairs : List (List Val))
    (hlmhdr : lmS.header = [("Year", dY2), ("Team", dT2), ("League", dL2)])
    (hlmrows : lmS.rows = assoc.map (fun e => [e.1.1, e.1.2, e.2]))
    (hnd : (assoc.map Prod.fst).Nodup)
    (hshape : ∀ p ∈ pairs, ∃ y tv, p = [Val.int y, tv]) :
    Df.leftMerge ⟨[("Year", dY), ("Team", dT), ("League", PyDtype.obj)],
        pairs.map (fun p => p ++ [dfltOf p])⟩ lmS ["Year", "Team"] "" "_dffl" =
    some ⟨[("Year", dY), ("Team", dT), ("League", PyDtype.obj), ("League_dffl", dL2)],
      pairs.map (fun p => (p ++ [dfltOf p]) ++ mTail assoc p)⟩ := by
  have hassoc : rowsAssoc lmS ["Year", "Team"] =
      some (assoc.map (fun e => ([e.1.1, e.1.2], [e.2]))) := by
    unfold rowsAssoc
    rw [hlmhdr, hlmrows]
    exact lm_rowsAssoc dY2 dT2 dL2 assoc
  have hlk : ∀ lr ∈ pairs.map (fun p => p ++ [dfltOf p]),
      (keyOfRow [("Year", dY), ("Team", dT), ("League", PyDtype.obj)]
        ["Year", "Team"] lr).isSome := by
    intro lr hlr
    obtain ⟨p, hp, rfl⟩ := List.mem_map.mp hlr
    obtain ⟨y, tv, rfl⟩ := hshape p hp
    rfl
  have hmc := leftMerge_char
    ⟨[("Year", dY), ("Team", dT), ("League", PyDtype.obj)],
      pairs.map (fun p => p ++ [dfltOf p])⟩ lmS ["Year", "Team"] "" "_dffl"
    (assoc.map (fun e => ([e.1.1, e.1.2], [e.2]))) hassoc
    (assoc_keys_nodup assoc hnd) hlk
  rw [hmc]
  refine congrArg some ?_
  have hh : mergedHeader
      ⟨[("Year", dY), ("Team", dT), ("League", PyDtype.obj)],
        pairs.map (fun p => p ++ [dfltOf p])⟩ lmS ["Year", "Team"] "" "_dffl" =
      [("Year", dY), ("Team", dT), ("League", PyDtype.obj), ("League_dffl", dL2)] := by
    unfold mergedHeader
    rw [hlmhdr]
    rfl
  rw [hh]
  refine congrArg (Df.mk _) ?_
  rw [List.map_map]
  refine List.map_congr_left (fun p hp => ?_)
  obtain ⟨y, tv, rfl⟩ := hshape p hp
  simp only [Function.comp_apply]
  have hkq : keyOfRow [("Year", dY), ("Team", dT), ("League", PyDtype.obj)]
      ["Year", "Team"] ([Val.int y, tv] ++ [dfltOf [Val.int y, tv]]) =
      some [Val.int y, tv] := rfl
  rw [hkq]
  have hfill : (((nonKeyCols lmS.header ["Year", "Team"]).map Prod.fst).map
      (fun _ => Val.na)) = [Val.na] := by
    rw [hlmhdr]
    rfl
  rw [hfill]
  simp only [mergeCells]
  rw [alook_pair]
  cases halk : alook (Val.int y, tv) assoc with
  | none => simp [mTail, halk]
  | some lg => simp [mTail, halk]

theorem omap_map (f : β → Option γ) (g : α → β) (l : List α) :
    omap f (l.map g) = omap (fun a => f (g a)) l := by
  induction l with
  | nil => rfl
  | cons a t ih => rw [List.map_cons, omap_cons, omap_cons, ih]

theorem combLeague (dY dT dL2 : PyDtype) (assoc : List ((Val × Val) × Val))
    (pairs : List (List Val))
    (hnn : ∀ e ∈ assoc, e.2 ≠ Val.na)
    (hshape : ∀ p ∈ pairs, ∃ y tv, p = [Val.int y, tv]) :
    Df.combineFirstCol
      ⟨[("Year", dY), ("Team", dT), ("League", PyDtype.obj), ("League_dffl", dL2)],
        pairs.map (fun p => (p ++ [dfltOf p]) ++ mTail assoc p)⟩
      "League" "League_dffl" =
    some ⟨[("Year", dY), ("Team", dT), ("League", PyDtype.obj), ("League_dffl", dL2)],
      pairs.map (fun p => (p ++ [assignOf assoc p]) ++ mTail assoc p)⟩ := by
  have hrows : omap (fun r => do
      let a ← rowCell [("Year", dY), ("Team", dT), ("League", PyDtype.obj),
        ("League_dffl", dL2)] r "League_dffl"
      let b ← rowCell [("Year", dY), ("Team", dT), ("League", PyDtype.obj),
        ("League_dffl", dL2)] r "League"
      pure (setCellByName [("Year", dY), ("Team", dT), ("League", PyDtype.obj),
        ("League_dffl", dL2)] r "League" (if pdIsna a then b else a)))
      (pairs.map (fun p => (p ++ [dfltOf p]) ++ mTail assoc p)) =
      some (pairs.map (fun p => (p ++ [assignOf assoc p]) ++ mTail assoc p)) := by
    rw [omap_map]
    refine omap_some_map (fun p hp => ?_)
    obtain ⟨y, tv, rfl⟩ := hshape p hp
    cases halk : alook (Val.int y, tv) assoc with
    | none =>
      have hmt : mTail assoc [Val.int y, tv] = [Val.na] := by
        simp [mTail, halk]
      have has : assignOf assoc [Val.int y, tv] = dfltOf [Val.int y, tv] := by
        simp [assignOf, halk]
      rw [hmt, has]
      rfl
    | some lg =>
      have hmt : mTail assoc [Val.int y, tv] = [lg] := by
        simp [mTail, halk]
      have has : assignOf assoc [Val.int y, tv] = lg := by
        simp [assignOf, halk]
      have hlg : lg ≠ Val.na := hnn ((Val.int y, tv), lg) (alook_mem _ assoc lg halk)
      have hpd : pdIsna lg = false := by
        cases lg with
        | na => exact absurd rfl hlg
        | int _ => rfl
        | str _ => rfl
      rw [hmt, has]
      have hstep : (do
          let a ← rowCell [("Year", dY), ("Team", dT), ("League", PyDtype.obj),
            ("League_dffl", dL2)]
            (([Val.int y, tv] ++ [dfltOf [Val.int y, tv]]) ++ [lg]) "League_dffl"
          let b ← rowCell [("Year", dY), ("Team", dT), ("League", PyDtype.obj),
            ("League_dffl", dL2)]
            (([Val.int y, tv] ++ [dfltOf [Val.int y, tv]]) ++ [lg]) "League"
          pure (setCellByName [("Year", dY), ("Team", dT), ("League", PyDtype.obj),
            ("League_dffl", dL2)]
            (([Val.int y, tv] ++ [dfltOf [Val.int y, tv]]) ++ [lg]) "League"
            (if pdIsna a then b else a))) =
          some (setCellByName [("Year", dY), ("Team", dT), ("League", PyDtype.obj),
            ("League_dffl", dL2)]
            (([Val.int y, tv] ++ [dfltOf [Val.int y, tv]]) ++ [lg]) "League"
            (if pdIsna lg then dfltOf [Val.int y, tv] else lg)) := rfl
      rw [hstep, hpd]
      rfl
  rw [show Df.combineFirstCol
      ⟨[("Year", dY), ("Team", dT), ("League", PyDtype.obj), ("League_dffl", dL2)],
        pairs.map (fun p => (p ++ [dfltOf p]) ++ mTail assoc p)⟩
      "League" "League_dffl" =
    (omap (fun r => do
      let a ← rowCell [("Year", dY), ("Team", dT), ("League", PyDtype.obj),
        ("League_dffl", dL2)] r "League_dffl"
      let b ← rowCell [("Year", dY), ("Team", dT), ("League", PyDtype.obj),
        ("League_dffl", dL2)] r "League"
      pure (setCellByName [("Year", dY), ("Team", dT), ("League", PyDtype.obj),
        ("League_dffl", dL2)] r "League" (if pdIsna a then b else a)))
      (pairs.map (fun p => (p ++ [dfltOf p]) ++ mTail assoc p))).bind (fun rows =>
        some ⟨[("Year", dY), ("Team", dT), ("League", PyDtype.obj),
          ("League_dffl", dL2)], rows⟩)
    from rfl, hrows]
  rfl

theorem selectClm (dY dT dL2 : PyDtype) (assoc : List ((Val × Val) × Val))
    (pairs : List (List Val))
    (hshape : ∀ p ∈ pairs, ∃ y tv, p = [Val.int y, tv]) :
    Df.select
      ⟨[("Year", dY), ("Team", dT), ("League", PyDtype.obj), ("League_dffl", dL2)],
        pairs.map (fun p => (p ++ [assignOf assoc p]) ++ mTail assoc p)⟩
      ["Year", "Team", "League"] =
    some ⟨[("Year", dY), ("Team", dT), ("League", PyDtype.obj)],
      pairs.map (fun p => p ++ [assignOf assoc p])⟩ := by
  have hrows : omap (fun r => omap (rowCell [("Year", dY), ("Team", dT),
      ("League", PyDtype.obj), ("League_dffl", dL2)] r) ["Year", "Team", "League"])
      (pairs.map (fun p => (p ++ [assignOf assoc p]) ++ mTail assoc p)) =
      some (pairs.map (fun p => p ++ [assignOf assoc p])) := by
    rw [omap_map]
    refine omap_some_map (fun p hp => ?_)
    obtain ⟨y, tv, rfl⟩ := hshape p hp
    cases halk : alook (Val.int y, tv) assoc with
    | none =>
      have hmt : mTail assoc [Val.int y, tv] = [Val.na] := by
        simp [mTail, halk]
      rw [hmt]
      rfl
    | some lg =>
      have hmt : mTail assoc [Val.int y, tv] = [lg] := by
        simp [mTail, halk]
      rw [hmt]
      rfl
  rw [show Df.select
      ⟨[("Year", dY), ("Team", dT), ("League", PyDtype.obj), ("League_dffl", dL2)],
        pairs.map (fun p => (p ++ [assignOf assoc p]) ++ mTail assoc p)⟩
      ["Year", "Team", "League"] =
    (omap (fun r => omap (rowCell [("Year", dY), ("Team", dT),
      ("League", PyDtype.obj), ("League_dffl", dL2)] r) ["Year", "Team", "League"])
      (pairs.map (fun p => (p ++ [assignOf assoc p]) ++ mTail assoc p))).bind
      (fun rows => some ⟨[("Year", dY), ("Team", dT), ("League", PyDtype.obj)], rows⟩)
    from rfl, hrows]
  rfl

theorem clm_rowsAssoc (dY dT : PyDtype) (assoc : List ((Val × Val) × Val))
    (pairs : List (List Val))
    (hshape : ∀ p ∈ pairs, ∃ y tv, p = [Val.int y, tv]) :
    rowsAssoc ⟨[("Year", dY), ("Team", dT), ("League", PyDtype.obj)],
        pairs.map (fun p => p ++ [assignOf assoc p])⟩ ["Year", "Team"] =
    some (pairs.map (fun p => (p, [assignOf assoc p]))) := by
  show omap (rowEntry [("Year", dY), ("Team", dT), ("League", PyDtype.obj)]
      ["Year", "Team"]
      ((nonKeyCols [("Year", dY), ("Team", dT), ("League", PyDtype.obj)]
        ["Year", "Team"]).map Prod.fst))
      (pairs.map (fun p => p ++ [assignOf assoc p])) =
    some (pairs.map (fun p => (p, [assignOf assoc p])))
  rw [omap_map]
  refine omap_some_map (fun p hp => ?_)
  obtain ⟨y, tv, rfl⟩ := hshape p hp
  rfl

theorem clm_mergedHeader (df : Df) (dY dT : PyDtype) (rows2 : List (List Val))
    (hnoL : "League" ∉ df.names) :
    mergedHeader df ⟨[("Year", dY), ("Team", dT), ("League", PyDtype.obj)], rows2⟩
      ["Year", "Team"] "_x" "_y" = df.header ++ [("League", PyDtype.obj)] := by
  have hfalse : decide (("League" : String) ∈ df.names) = false :=
    decide_eq_false hnoL
  have hleft : df.header.map (fun cd =>
      ((if decide (cd.1 ∈ (["League"] : List String)) = true
        then cd.1 ++ "_x" else cd.1), cd.2)) = df.header := by
    have hcond : ∀ cd ∈ df.header,
        ((if decide (cd.1 ∈ (["League"] : List String)) = true
          then cd.1 ++ "_x" else cd.1), cd.2) = cd := by
      intro cd hcd
      have hne : cd.1 ≠ "League" := by
        intro he
        exact hnoL (he ▸ List.mem_map_of_mem Prod.fst hcd)
      have hdec : decide (cd.1 ∈ (["League"] : List String)) = false := by
        apply decide_eq_false
        simp [hne]
      rw [hdec]
      rfl
    rw [List.map_congr_left hcond]
    simp
  have hstep : mergedHeader df
      ⟨[("Year", dY), ("Team", dT), ("League", PyDtype.obj)], rows2⟩
      ["Year", "Team"] "_x" "_y" =
    df.header.map (fun cd =>
      ((if decide (cd.1 ∈ (["League"] : List String)) = true
        then cd.1 ++ "_x" else cd.1), cd.2)) ++
    [((if decide (("League" : String) ∈ df.names) = true
       then "League" ++ "_y" else "League"), PyDtype.obj)] := rfl
  rw [hstep, hfalse, hleft]
  rfl

/-- Claim C3: after the league merge of main.py, the output keeps every stats
row and appends a `League` column whose value is determined by the row's
(Year, Team) pair alone - the `league_mapping.csv` entry when that pair is
listed there, otherwise `"Combined"` for years up to 2022 and
`"Other Leagues"` from 2023 on.  Hypotheses: the stats frame has integer
`Year` cells, present `Team` cells and no `League` column; the league
mapping (after its `Year` column is cast to int and `[Year, Team, League]`
are selected) holds the association `assoc` with unique keys and no missing
league values. -/
theorem C3_league_assignment (df lm lmC lmS : Df) (dY dT dY2 dT2 dL2 : PyDtype)
    (assoc : List ((Val × Val) × Val))
    (hY : alook "Year" df.header = some dY)
    (hT : alook "Team" df.header = some dT)
    (hcells : ∀ r ∈ df.rows, (∃ y, rowCell df.header r "Year" = some (.int y)) ∧
        (rowCell df.header r "Team").isSome)
    (hnoL : "League" ∉ df.names)
    (hcast : lm.castCol "Year" PyDtype.int64 = some lmC)
    (hsel : lmC.select ["Year", "Team", "League"] = some lmS)
    (hlmhdr : lmS.header = [("Year", dY2), ("Team", dT2), ("League", dL2)])
    (hlmrows : lmS.rows = assoc.map (fun e => [e.1.1, e.1.2, e.2]))
    (hnd : (assoc.map Prod.fst).Nodup)
    (hnn : ∀ e ∈ assoc, e.2 ≠ Val.na) :
    league_merge df lm =
      some ⟨df.header ++ [("League", PyDtype.obj)],
        df.rows.map (fun r => r ++ [leagueAssignedRow assoc df.header r])⟩ := by
  have hpairs_shape : ∀ p ∈ dedupAux [] (df.rows.map (ytKey df.header)),
      ∃ y tv, p = [Val.int y, tv] := by
    intro p hp
    have hmem := ((mem_dedupAux [] _ p).mp hp).1
    obtain ⟨r, hr, rfl⟩ := List.mem_map.mp hmem
    obtain ⟨⟨y, hy⟩, _⟩ := hcells r hr
    refine ⟨y, (rowCell df.header r "Team").getD .na, ?_⟩
    simp [ytKey, hy]
  have hcomplete : complete_league_mapping_df df lm =
      some ⟨[("Year", dY), ("Team", dT), ("League", PyDtype.obj)],
        (dedupAux [] (df.rows.map (ytKey df.header))).map
          (fun p => p ++ [assignOf assoc p])⟩ := by
    unfold complete_league_mapping_df
    rw [select_YT df dY dT hY hT hcells]
    simp only [Option.bind_eq_bind, Option.some_bind]
    rw [show Df.dropDuplicates ⟨[("Year", dY), ("Team", dT)],
          df.rows.map (ytKey df.header)⟩ =
        ⟨[("Year", dY), ("Team", dT)],
          dedupAux [] (df.rows.map (ytKey df.header))⟩ from rfl]
    rw [addLeague dY dT _ hpairs_shape]
    simp only [Option.some_bind]
    rw [hcast]
    simp only [Option.some_bind]
    rw [hsel]
    simp only [Option.some_bind]
    rw [merge1_char dY dT lmS dY2 dT2 dL2 assoc _ hlmhdr hlmrows hnd hpairs_shape]
    simp only [Option.some_bind]
    rw [combLeague dY dT dL2 assoc _ hnn hpairs_shape]
    simp only [Option.some_bind]
    exact selectClm dY dT dL2 assoc _ hpairs_shape
  have hkeyDf : ∀ r ∈ df.rows,
      keyOfRow df.header ["Year", "Team"] r = some (ytKey df.header r) := by
    intro r hr
    obtain ⟨⟨y, hy⟩, htv⟩ := hcells r hr
    obtain ⟨t, ht⟩ := Option.isSome_iff_exists.mp htv
    unfold keyOfRow
    rw [show (["Year", "Team"] : List String) = "Year" :: ["Team"] from rfl,
      omap_cons, omap_cons, hy, ht]
    simp [omap, ytKey, hy, ht]
  have hlk2 : ∀ r ∈ df.rows, (keyOfRow df.header ["Year", "Team"] r).isSome := by
    intro r hr
    rw [hkeyDf r hr]
    rfl
  have hndF : (((dedupAux [] (df.rows.map (ytKey df.header))).map
      (fun p => (p, [assignOf assoc p]))).map Prod.fst).Nodup := by
    rw [List.map_map]
    rw [show (Prod.fst ∘ fun p : List Val => (p, [assignOf assoc p])) = id from rfl,
      List.map_id]
    exact nodup_dedupAux [] _
  have hmc2 := leftMerge_char df
    ⟨[("Year", dY), ("Team", dT), ("League", PyDtype.obj)],
      (dedupAux [] (df.rows.map (ytKey df.header))).map
        (fun p => p ++ [assignOf assoc p])⟩
    ["Year", "Team"] "_x" "_y"
    ((dedupAux [] (df.rows.map (ytKey df.header))).map
      (fun p => (p, [assignOf assoc p])))
    (clm_rowsAssoc dY dT assoc _ hpairs_shape) hndF hlk2
  unfold league_merge
  rw [hcomplete]
  simp only [Option.bind_eq_bind, Option.some_bind]
  rw [hmc2]
  refine congrArg some ?_
  rw [clm_mergedHeader df dY dT _ hnoL]
  refine congrArg (Df.mk _) ?_
  refine List.map_congr_left (fun r hr => ?_)
  rw [hkeyDf r hr]
  simp only [mergeCells]
  have hmemp : ytKey df.header r ∈ dedupAux [] (df.rows.map (ytKey df.header)) :=
    (mem_dedupAux [] _ _).mpr ⟨List.mem_map_of_mem _ hr, by simp⟩
  rw [alook_self_map (fun p => [assignOf assoc p]) _ _ hmemp]
  simp only [Option.getD_some]
  obtain ⟨⟨y, hy⟩, htv⟩ := hcells r hr
  obtain ⟨t, ht⟩ := Option.isSome_iff_exists.mp htv
  have hval : assignOf assoc (ytKey df.header r) =
      leagueAssignedRow assoc df.header r := by
    simp only [ytKey, hy, ht, Option.getD_some, leagueAssignedRow]
    cases halk : alook (Val.int y, t) assoc with
    | some lg => simp [assignOf, halk]
    | none => simp [assignOf, halk, dfltOf]
  rw [hval]

/-- Witness for C3: the small stats frame merged with the one-line league
mapping gets `"Combined"` for Berlin 2021, the mapped `"DFFL"` for Berlin
2024 and `"Other Leagues"` for Potsdam 2024. -/
theorem C3_league_assignment_witness :
    league_merge exStatsDf exLeagueDf =
      some ⟨[("Team", PyDtype.obj), ("Player Number", PyDtype.nullableInt),
             ("Year", PyDtype.int64), ("League", PyDtype.obj)],
            [[.str "Berlin", .int 7, .int 2021, .str "Combined"],
             [.str "Berlin", .int 7, .int 2024, .str "DFFL"],
             [.str "Potsdam", .int 9, .int 2024, .str "Other Leagues"]]⟩ := by
  have h := C3_league_assignment exStatsDf exLeagueDf
    ⟨[("Year", .int64), ("Team", .obj), ("League", .obj)],
      [[.int 2024, .str "Berlin", .str "DFFL"]]⟩
    ⟨[("Year", .int64), ("Team", .obj), ("League", .obj)],
      [[.int 2024, .str "Berlin", .str "DFFL"]]⟩
    .int64 .obj .int64 .obj .obj exLeagueAssoc
    rfl rfl
    (by
      intro r hr
      simp only [exStatsDf, List.mem_cons, List.not_mem_nil, or_false] at hr
      rcases hr with rfl | rfl | rfl
      · exact ⟨⟨2021, rfl⟩, rfl⟩
      · exact ⟨⟨2024, rfl⟩, rfl⟩
      · exact ⟨⟨2024, rfl⟩, rfl⟩)
    (by decide) rfl rfl rfl rfl (by decide) (by decide)
  rw [h]
  rfl

end DfflStats